import Mathlib

/-!
# Verification of the external-API caching and data-mapping core

Shallow embedding of the insect-search backend core:
the TTL cache (services/cache_service.py), the iNaturalist query client
(services/inaturalist_service.py) and the observation field mapper,
geo-point codec and repository (services/insect_service.py), together
with the request-validation boundary (models/api_models.py and
routers/observations.py).

Python dictionaries are modelled as association lists over `String` keys
and a JSON-like `Value` grammar.  Python floats are modelled as rationals;
the float-to-string conversion used by f-strings is modelled by an exact
decimal printer, and `float(...)` applied to a string by a decimal parser.
Time is passed explicitly to the cache operations.
-/

set_option maxHeartbeats 1000000
set_option maxRecDepth 100000

namespace InsectApi

/-- JSON-like runtime values: the shapes that flow through the service
dictionaries.  `vPoint` models a PostGIS point object exposing `x` and `y`
attributes. -/
inductive Value where
  | vNull : Value
  | vBool (b : Bool) : Value
  | vNum (q : Rat) : Value
  | vStr (s : String) : Value
  | vPoint (x y : Rat) : Value
  | vList (xs : List Value) : Value
  | vDict (fields : List (String × Value)) : Value

open Value

/-- A Python dict: an association list with (in all reachable states)
unique keys, in insertion order. -/
abbrev AList := List (String × Value)

/-- Dict membership / indexing: the first binding of a key. -/
def lookupA {β : Type} : List (String × β) → String → Option β
  | [], _ => none
  | (k1, v) :: rest, k => if k = k1 then some v else lookupA rest k

/-- Python dict assignment `d[k] = v`: overwrite an existing binding in
place, else append the new binding. -/
def setKey {β : Type} : List (String × β) → String → β → List (String × β)
  | [], k, v => [(k, v)]
  | (k1, v1) :: rest, k, v =>
      if k1 = k then (k, v) :: rest else (k1, v1) :: setKey rest k v

/-- Python `del d[k]` / `d.pop(k)` effect on the bindings. -/
def delKey {β : Type} (d : List (String × β)) (k : String) : List (String × β) :=
  d.filter (fun p => ¬ p.1 = k)

theorem lookupA_setKey_self {β : Type} (d : List (String × β)) (k : String) (v : β) :
    lookupA (setKey d k v) k = some v := by
  induction d with
  | nil => simp [setKey, lookupA]
  | cons p rest ih =>
    obtain ⟨k1, v1⟩ := p
    by_cases hk : k1 = k
    · simp [setKey, hk, lookupA]
    · have hk2 : ¬ k = k1 := fun hc => hk hc.symm
      simp only [setKey, if_neg hk, lookupA, if_neg hk2]
      exact ih

theorem lookupA_setKey_other {β : Type} (d : List (String × β)) (k k2 : String) (v : β)
    (hne : k2 ≠ k) : lookupA (setKey d k v) k2 = lookupA d k2 := by
  induction d with
  | nil => simp [setKey, lookupA, if_neg hne]
  | cons p rest ih =>
    obtain ⟨k1, v1⟩ := p
    by_cases hk : k1 = k
    · subst hk
      simp only [setKey, if_pos rfl, lookupA, if_neg hne]
    · simp only [setKey, if_neg hk, lookupA]
      by_cases hk2 : k2 = k1
      · rw [if_pos hk2, if_pos hk2]
      · rw [if_neg hk2, if_neg hk2]; exact ih

theorem lookupA_delKey_self {β : Type} (d : List (String × β)) (k : String) :
    lookupA (delKey d k) k = none := by
  induction d with
  | nil => rfl
  | cons p rest ih =>
    obtain ⟨k1, v1⟩ := p
    by_cases hk : k1 = k
    · simpa [delKey, hk] using ih
    · have hkk : ¬ k = k1 := fun hc => hk hc.symm
      simpa [delKey, hk, lookupA, hkk] using ih

theorem lookupA_delKey_other {β : Type} (d : List (String × β)) (k k2 : String)
    (hne : k2 ≠ k) : lookupA (delKey d k) k2 = lookupA d k2 := by
  induction d with
  | nil => rfl
  | cons p rest ih =>
    obtain ⟨k1, v1⟩ := p
    by_cases hk : k1 = k
    · subst hk
      have hk2 : ¬ k2 = k1 := hne
      calc lookupA (delKey ((k1, v1) :: rest) k1) k2
          = lookupA (delKey rest k1) k2 := by simp [delKey]
        _ = lookupA rest k2 := ih
        _ = lookupA ((k1, v1) :: rest) k2 := by simp [lookupA, if_neg hk2]
    · calc lookupA (delKey ((k1, v1) :: rest) k) k2
          = lookupA ((k1, v1) :: delKey rest k) k2 := by simp [delKey, hk]
        _ = lookupA ((k1, v1) :: rest) k2 := by
            by_cases hk2 : k2 = k1
            · simp [lookupA, if_pos hk2]
            · simp only [lookupA, if_neg hk2]; exact ih

theorem delKey_length_of_mem {β : Type} (d : List (String × β)) (k : String)
    (hmem : (lookupA d k).isSome) (hnodup : (d.map Prod.fst).Nodup) :
    (delKey d k).length + 1 = d.length := by
  induction d with
  | nil => simp [lookupA] at hmem
  | cons p rest ih =>
    obtain ⟨k1, v1⟩ := p
    simp only [List.map_cons, List.nodup_cons] at hnodup
    by_cases hk : k1 = k
    · subst hk
      have hrest : delKey rest k1 = rest := by
        apply List.filter_eq_self.mpr
        intro p hp
        have hne : ¬ p.1 = k1 := fun hcontra => hnodup.1 (List.mem_map.mpr ⟨p, hp, hcontra⟩)
        simp [hne]
      have hcons : delKey ((k1, v1) :: rest) k1 = delKey rest k1 := by
        simp [delKey]
      rw [hcons, hrest]
      simp
    · have hkk : ¬ k = k1 := fun hc => hk hc.symm
      simp only [lookupA, if_neg hkk] at hmem
      have hlen := ih hmem hnodup.2
      have hcons : delKey ((k1, v1) :: rest) k = (k1, v1) :: delKey rest k := by
        simp [delKey, hk]
      rw [hcons]
      simp only [List.length_cons]
      omega

/-! ## Decimal digit strings

Python formats floats into decimal strings (f-strings, str()) and parses
them back with float().  The model renders a rational with a power-of-ten
denominator exactly, and parses sign / integer part / fractional part. -/

/-- The character for the decimal digit d (meaningful for d < 10). -/
def digitCh (d : Nat) : Char := Char.ofNat (48 + d)

/-- Recognizer for the characters 0 through 9. -/
def isDigitCh (c : Char) : Bool := 48 ≤ c.toNat && c.toNat ≤ 57

/-- Numeric value of a digit character. -/
def charVal (c : Char) : Nat := c.toNat - 48

/-- Little-endian decimal digits by fueled division (structurally
recursive, hence kernel-computable; equal to Nat.digits below). -/
def natDigitsAux : Nat → Nat → List Nat
  | 0, _ => []
  | fuel + 1, n => if n = 0 then [] else n % 10 :: natDigitsAux fuel (n / 10)

theorem natDigitsAux_eq_digits :
    ∀ fuel n : Nat, n ≤ fuel → natDigitsAux fuel n = Nat.digits 10 n := by
  intro fuel
  induction fuel with
  | zero =>
    intro n hn
    have : n = 0 := by omega
    subst this
    simp [natDigitsAux]
  | succ f ih =>
    intro n hn
    by_cases h0 : n = 0
    · subst h0; simp [natDigitsAux]
    · rw [natDigitsAux, if_neg h0]
      rw [Nat.digits_def' (by norm_num : 1 < 10) (Nat.pos_of_ne_zero h0)]
      have hlt : n / 10 < n := Nat.div_lt_self (Nat.pos_of_ne_zero h0) (by norm_num)
      rw [ih (n / 10) (by omega)]

/-- Decimal digits of a natural number, most significant first (empty for
zero; users pad with zeros). -/
def natChars (n : Nat) : List Char := ((natDigitsAux n n).map digitCh).reverse

/-- Numeric value of a digit string, most significant first. -/
def digitsVal (s : List Char) : Nat :=
  s.foldl (fun acc c => acc * 10 + charVal c) 0

theorem charVal_digitCh {d : Nat} (h : d < 10) : charVal (digitCh d) = d := by
  interval_cases d <;> decide

theorem isDigitCh_digitCh {d : Nat} (h : d < 10) : isDigitCh (digitCh d) = true := by
  interval_cases d <;> decide

theorem digitCh_ne_of_not_digit {d : Nat} (hd : d < 10) {c : Char}
    (hc : isDigitCh c = false) : digitCh d ≠ c := by
  intro h
  rw [← h, isDigitCh_digitCh hd] at hc
  cases hc

theorem digitsVal_from (s : List Char) (acc : Nat) :
    s.foldl (fun acc c => acc * 10 + charVal c) acc
      = acc * 10 ^ s.length + digitsVal s := by
  induction s generalizing acc with
  | nil => simp [digitsVal]
  | cons c s ih =>
    simp only [List.foldl_cons, List.length_cons, digitsVal]
    rw [ih, ih (0 * 10 + charVal c)]
    ring

theorem digitsVal_append (a b : List Char) :
    digitsVal (a ++ b) = digitsVal a * 10 ^ b.length + digitsVal b := by
  unfold digitsVal
  rw [List.foldl_append, digitsVal_from]
  rfl

theorem digitsVal_replicate_zero (j : Nat) :
    digitsVal (List.replicate j '0') = 0 := by
  induction j with
  | zero => rfl
  | succ j ih =>
    simp only [List.replicate_succ, digitsVal, List.foldl_cons]
    simpa [digitsVal, charVal] using ih

theorem digitsVal_revmap (ds : List Nat) (h : ∀ d ∈ ds, d < 10) :
    digitsVal ((ds.map digitCh).reverse) = Nat.ofDigits 10 ds := by
  induction ds with
  | nil => rfl
  | cons d ds ih =>
    have hd : d < 10 := h d (by simp)
    have hds : ∀ x ∈ ds, x < 10 := fun x hx => h x (by simp [hx])
    simp only [List.map_cons, List.reverse_cons]
    rw [digitsVal_append, ih hds]
    simp [digitsVal, charVal_digitCh hd, Nat.ofDigits_cons]
    ring

theorem digitsVal_natChars (n : Nat) : digitsVal (natChars n) = n := by
  unfold natChars
  rw [natDigitsAux_eq_digits n n le_rfl]
  rw [digitsVal_revmap _ (fun d hd => Nat.digits_lt_base (by norm_num) hd)]
  exact Nat.ofDigits_digits 10 n

theorem natChars_all_digits (n : Nat) :
    ∀ c ∈ natChars n, isDigitCh c = true := by
  intro c hc
  unfold natChars at hc
  rw [natDigitsAux_eq_digits n n le_rfl] at hc
  rw [List.mem_reverse, List.mem_map] at hc
  obtain ⟨d, hd, rfl⟩ := hc
  exact isDigitCh_digitCh (Nat.digits_lt_base (by norm_num) hd)

/-- Left-pad a digit string with zeros up to width n. -/
def padZeros (s : List Char) (n : Nat) : List Char :=
  List.replicate (n - s.length) '0' ++ s

/-- Digits of n with a decimal point placed e digits from the right
(padding with zeros so both sides of the point are nonempty). -/
def fmtDecCore (n : Nat) (e : Nat) : List Char :=
  let ds := padZeros (natChars n) (e + 1)
  ds.take (ds.length - e) ++ '.' :: ds.drop (ds.length - e)

/-- Exact decimal rendering of the rational m / 10 ^ e, with a decimal
point (e ≥ 1 at every use site): the model of Python str() on a float. -/
def fmtDec (m : Int) (e : Nat) : List Char :=
  (if m < 0 then ['-'] else []) ++ fmtDecCore m.natAbs e

/-- Split a character list at every occurrence of c, keeping empty
pieces (the model of str.split with an explicit separator). -/
def splitOnChar (c : Char) : List Char → List (List Char)
  | [] => [[]]
  | d :: rest =>
    let r := splitOnChar c rest
    if d = c then [] :: r else (d :: r.headD []) :: r.tail

/-- Python str.split() with no argument, for strings whose only
whitespace is the space character: split on spaces, drop empty pieces. -/
def splitWs (s : List Char) : List (List Char) :=
  (splitOnChar ' ' s).filter (fun w => ¬ w = [])

/-- Digits with an optional single decimal point (value of the digit
parts combined). -/
def parseUnsigned (s : List Char) : Option Rat :=
  match splitOnChar '.' s with
  | [ip] =>
      if ip ≠ [] ∧ ip.all isDigitCh then some (digitsVal ip : Rat) else none
  | [ip, fp] =>
      if (ip ≠ [] ∨ fp ≠ []) ∧ ip.all isDigitCh ∧ fp.all isDigitCh then
        some ((digitsVal ip : Rat) + (digitsVal fp : Rat) / (10 : Rat) ^ fp.length)
      else none
  | _ => none

/-- Model of Python float() applied to a string: optional sign, then
decimal digits with an optional fractional part.  Returns none exactly
where float() raises ValueError.  (Exponent notation, inf/nan and
underscores are outside the modelled grammar; the printer below never
produces them for coordinate-sized values.) -/
def parseFloatS (s : List Char) : Option Rat :=
  match s with
  | [] => none
  | c :: rest =>
      if c = '-' then (parseUnsigned rest).map (fun q => -q)
      else if c = '+' then parseUnsigned rest
      else parseUnsigned (c :: rest)

theorem splitOnChar_no_occ (c : Char) (s : List Char)
    (h : ∀ d ∈ s, d ≠ c) : splitOnChar c s = [s] := by
  induction s with
  | nil => rfl
  | cons d rest ih =>
    have hd : d ≠ c := h d (by simp)
    have hr : splitOnChar c rest = [rest] := ih (fun x hx => h x (by simp [hx]))
    simp [splitOnChar, hr, if_neg hd]

theorem splitOnChar_append (c : Char) (a b : List Char)
    (h : ∀ d ∈ a, d ≠ c) :
    splitOnChar c (a ++ c :: b) = a :: splitOnChar c b := by
  induction a with
  | nil => simp [splitOnChar]
  | cons d a ih =>
    have hd : d ≠ c := h d (by simp)
    have hr := ih (fun x hx => h x (by simp [hx]))
    simp [splitOnChar, hr, if_neg hd]

theorem padZeros_length (s : List Char) (n : Nat) :
    (padZeros s n).length = max n s.length := by
  simp [padZeros]
  omega

theorem padZeros_all_digits (s : List Char) (n : Nat)
    (h : ∀ c ∈ s, isDigitCh c = true) :
    ∀ c ∈ padZeros s n, isDigitCh c = true := by
  intro c hc
  rcases List.mem_append.mp hc with h0 | hs
  · rw [List.eq_of_mem_replicate h0]; decide
  · exact h c hs

theorem digitsVal_padZeros (s : List Char) (n : Nat) :
    digitsVal (padZeros s n) = digitsVal s := by
  unfold padZeros
  rw [digitsVal_append, digitsVal_replicate_zero]
  simp

theorem parseUnsigned_eq_of_two (s ip fp : List Char)
    (h : splitOnChar '.' s = [ip, fp]) :
    parseUnsigned s =
      if (ip ≠ [] ∨ fp ≠ []) ∧ ip.all isDigitCh ∧ fp.all isDigitCh then
        some ((digitsVal ip : Rat) + (digitsVal fp : Rat) / (10 : Rat) ^ fp.length)
      else none := by
  unfold parseUnsigned
  rw [h]

theorem isDigitCh_not_special {c : Char} (h : isDigitCh c = true) :
    c ≠ '-' ∧ c ≠ '+' ∧ c ≠ '.' ∧ c ≠ ' ' ∧ c ≠ 'P' ∧ c ≠ ')' ∧ c ≠ '(' := by
  refine ⟨?_, ?_, ?_, ?_, ?_, ?_, ?_⟩ <;> (intro hc; rw [hc] at h; exact absurd h (by decide))

theorem parseUnsigned_fmtDecCore (n e : Nat) (he : 1 ≤ e) :
    parseUnsigned (fmtDecCore n e) = some ((n : Rat) / (10 : Rat) ^ e) := by
  have hds : ∀ c ∈ padZeros (natChars n) (e + 1), isDigitCh c = true :=
    padZeros_all_digits _ _ (natChars_all_digits n)
  set ds := padZeros (natChars n) (e + 1) with hds_def
  have hL : e + 1 ≤ ds.length := by
    rw [hds_def, padZeros_length]; omega
  set ip := ds.take (ds.length - e) with hip_def
  set fp := ds.drop (ds.length - e) with hfp_def
  have hip_len : ip.length = ds.length - e := by
    rw [hip_def, List.length_take]; omega
  have hfp_len : fp.length = e := by
    rw [hfp_def, List.length_drop]; omega
  have hsplit : ip ++ fp = ds := List.take_append_drop _ _
  have hip_dig : ∀ c ∈ ip, isDigitCh c = true := fun c hc =>
    hds c (by rw [← hsplit]; exact List.mem_append_left _ hc)
  have hfp_dig : ∀ c ∈ fp, isDigitCh c = true := fun c hc =>
    hds c (by rw [← hsplit]; exact List.mem_append_right _ hc)
  have hip_ne : ip ≠ [] := by
    apply List.ne_nil_of_length_pos
    omega
  have hip_nodot : ∀ d ∈ ip, d ≠ '.' := fun d hd =>
    (isDigitCh_not_special (hip_dig d hd)).2.2.1
  have hfp_nodot : ∀ d ∈ fp, d ≠ '.' := fun d hd =>
    (isDigitCh_not_special (hfp_dig d hd)).2.2.1
  have hval : digitsVal ip * 10 ^ e + digitsVal fp = n := by
    have h1 : digitsVal ds = n := by
      rw [hds_def, digitsVal_padZeros, digitsVal_natChars]
    rw [← hsplit, digitsVal_append, hfp_len] at h1
    exact h1
  have hcore : fmtDecCore n e = ip ++ '.' :: fp := rfl
  rw [hcore, parseUnsigned_eq_of_two _ ip fp
    (by rw [splitOnChar_append '.' ip fp hip_nodot, splitOnChar_no_occ '.' fp hfp_nodot])]
  rw [if_pos ⟨Or.inl hip_ne, List.all_eq_true.mpr hip_dig, List.all_eq_true.mpr hfp_dig⟩]
  congr 1
  rw [hfp_len]
  have h10 : ((10 : Rat) ^ e) ≠ 0 := by positivity
  field_simp
  push_cast [← hval]
  ring

theorem fmtDecCore_head (n e : Nat) :
    ∃ c rest, fmtDecCore n e = c :: rest ∧ isDigitCh c = true := by
  have hds : ∀ c ∈ padZeros (natChars n) (e + 1), isDigitCh c = true :=
    padZeros_all_digits _ _ (natChars_all_digits n)
  set ds := padZeros (natChars n) (e + 1) with hds_def
  have hL : e + 1 ≤ ds.length := by rw [hds_def, padZeros_length]; omega
  have hip_len : (ds.take (ds.length - e)).length = ds.length - e := by
    rw [List.length_take]; omega
  have hpos : 0 < (ds.take (ds.length - e)).length := by omega
  obtain ⟨c, rest, hcr⟩ := List.exists_cons_of_ne_nil (List.ne_nil_of_length_pos hpos)
  refine ⟨c, rest ++ '.' :: ds.drop (ds.length - e), ?_, ?_⟩
  · rw [fmtDecCore]
    rw [← hds_def, hcr]
    rfl
  · have : c ∈ ds.take (ds.length - e) := by rw [hcr]; simp
    exact hds c (List.mem_of_mem_take this)

theorem parseFloatS_fmtDec (m : Int) (e : Nat) (he : 1 ≤ e) :
    parseFloatS (fmtDec m e) = some ((m : Rat) / (10 : Rat) ^ e) := by
  obtain ⟨c, rest, hcore, hcdig⟩ := fmtDecCore_head m.natAbs e
  obtain ⟨hcm, hcp, -⟩ := isDigitCh_not_special hcdig
  by_cases hm : m < 0
  · have hfmt : fmtDec m e = '-' :: fmtDecCore m.natAbs e := by
      rw [fmtDec, if_pos hm]; rfl
    rw [hfmt]
    simp only [parseFloatS, if_true]
    rw [parseUnsigned_fmtDecCore _ _ he]
    rw [Option.map_some']
    congr 1
    have h1 : ((m.natAbs : Nat) : Int) = -m := Int.ofNat_natAbs_of_nonpos (le_of_lt hm)
    have habs : ((m.natAbs : Nat) : Rat) = -(m : Rat) := by
      rw [← Int.cast_natCast, h1, Int.cast_neg]
    rw [habs]
    ring
  · have hfmt : fmtDec m e = fmtDecCore m.natAbs e := by
      rw [fmtDec, if_neg hm]; rfl
    rw [hfmt, hcore]
    simp only [parseFloatS]
    rw [if_neg hcm, if_neg hcp, ← hcore, parseUnsigned_fmtDecCore _ _ he]
    congr 1
    have h1 : ((m.natAbs : Nat) : Int) = m := Int.natAbs_of_nonneg (by omega)
    have habs : ((m.natAbs : Nat) : Rat) = (m : Rat) := by
      rw [← Int.cast_natCast, h1]
    rw [habs]

/-- Smallest decimal exponent clearing the denominator, when one exists
(bounded search: a denominator of the form 2^a * 5^b always divides
10 ^ den). -/
def decExp (den : Nat) : Option Nat :=
  (List.range (den + 1)).find? (fun n => 10 ^ n % den == 0)

/-- The rational has a finite decimal expansion.  Every value a Python
binary float can hold is of this form, so this is the domain on which
the string codec models Python faithfully. -/
def IsDec (q : Rat) : Prop := 10 ^ q.den % q.den = 0

instance (q : Rat) : Decidable (IsDec q) := by unfold IsDec; infer_instance

/-- Model of Python str() on a float value: the shortest exact decimal
form, always printed with a decimal point (as Python prints floats).
The mantissa q.num * (10 ^ e / q.den) is the numerator of q * 10 ^ e,
written with integer arithmetic so that it is kernel-computable. -/
def fmtRat (q : Rat) : List Char :=
  match decExp q.den with
  | some e0 =>
      fmtDec (q.num * (((10 ^ (max e0 1)) / q.den : Nat) : Int)) (max e0 1)
  | none => ['0']

theorem decExp_isSome_of_isDec {q : Rat} (h : IsDec q) :
    (decExp q.den).isSome := by
  rw [decExp, List.find?_isSome]
  exact ⟨q.den, by simp [List.mem_range], by simpa using h⟩

theorem den_dvd_pow_of_decExp {q : Rat} {e0 : Nat}
    (h : decExp q.den = some e0) : q.den ∣ 10 ^ e0 := by
  have hp := List.find?_some h
  exact Nat.dvd_of_mod_eq_zero (by simpa using hp)

theorem int_mul_pow_of_dvd (q : Rat) (e : Nat) (hdvd : q.den ∣ 10 ^ e) :
    ((q.num * ((10 ^ e) / q.den : Nat) : Int) : Rat) = q * (10 : Rat) ^ e := by
  obtain ⟨t, ht⟩ := hdvd
  have hden : (q.den : Rat) ≠ 0 := by
    exact_mod_cast q.den_nz
  have htq : ((10 : Rat)) ^ e = (q.den : Rat) * (t : Rat) := by
    have h2 : ((10 ^ e : Nat) : Rat) = (((q.den * t) : Nat) : Rat) := by rw [ht]
    push_cast at h2
    exact h2
  have hdivt : (10 ^ e) / q.den = t := by
    rw [ht]; exact Nat.mul_div_cancel_left t (Nat.pos_of_ne_zero q.den_nz)
  have hqden : q * (q.den : Rat) = (q.num : Rat) := by
    have hq : (q.num : Rat) / (q.den : Rat) = q := Rat.num_div_den q
    calc q * (q.den : Rat) = (q.num : Rat) / (q.den : Rat) * (q.den : Rat) := by rw [hq]
      _ = (q.num : Rat) := div_mul_cancel₀ _ hden
  rw [hdivt, htq, ← mul_assoc, hqden]
  push_cast
  ring

theorem fmtRat_roundtrip (q : Rat) (h : IsDec q) :
    parseFloatS (fmtRat q) = some q := by
  obtain ⟨e0, he0⟩ := Option.isSome_iff_exists.mp (decExp_isSome_of_isDec h)
  have hdvd : q.den ∣ 10 ^ (max e0 1) :=
    dvd_trans (den_dvd_pow_of_decExp he0) (pow_dvd_pow 10 (le_max_left e0 1))
  have hint := int_mul_pow_of_dvd q (max e0 1) hdvd
  have hfmt : fmtRat q
      = fmtDec (q.num * (((10 ^ (max e0 1)) / q.den : Nat) : Int)) (max e0 1) := by
    rw [fmtRat, he0]
  rw [hfmt, parseFloatS_fmtDec _ _ (le_max_right e0 1)]
  congr 1
  rw [hint]
  have h10 : ((10 : Rat)) ^ (max e0 1) ≠ 0 := by positivity
  field_simp

theorem fmtDecCore_chars (n e : Nat) :
    ∀ c ∈ fmtDecCore n e, c = '.' ∨ isDigitCh c = true := by
  intro c hc
  have hds : ∀ x ∈ padZeros (natChars n) (e + 1), isDigitCh x = true :=
    padZeros_all_digits _ _ (natChars_all_digits n)
  rw [fmtDecCore] at hc
  simp only [List.mem_append, List.mem_cons] at hc
  rcases hc with h1 | h2 | h3
  · exact Or.inr (hds c (List.mem_of_mem_take h1))
  · exact Or.inl h2
  · exact Or.inr (hds c (List.mem_of_mem_drop h3))

theorem fmtDec_chars (m : Int) (e : Nat) :
    ∀ c ∈ fmtDec m e, c = '-' ∨ c = '.' ∨ isDigitCh c = true := by
  intro c hc
  rw [fmtDec] at hc
  rcases List.mem_append.mp hc with h1 | h2
  · left
    by_cases hm : m < 0
    · rw [if_pos hm] at h1; simpa using h1
    · rw [if_neg hm] at h1; simp at h1
  · exact Or.inr (fmtDecCore_chars m.natAbs e c h2)

theorem fmtRat_chars (q : Rat) :
    ∀ c ∈ fmtRat q, c = '-' ∨ c = '.' ∨ isDigitCh c = true := by
  intro c hc
  rw [fmtRat] at hc
  rcases he : decExp q.den with _ | e0 <;> rw [he] at hc
  · right; right
    simp only [List.mem_singleton] at hc
    rw [hc]; decide
  · exact fmtDec_chars _ _ c hc

theorem fmtDec_ne_nil (m : Int) (e : Nat) : fmtDec m e ≠ [] := by
  obtain ⟨c, rest, hcr, -⟩ := fmtDecCore_head m.natAbs e
  unfold fmtDec
  rw [hcr]
  by_cases hm : m < 0
  · rw [if_pos hm]; simp
  · rw [if_neg hm]; simp

theorem fmtRat_ne_nil (q : Rat) : fmtRat q ≠ [] := by
  rw [fmtRat]
  rcases he : decExp q.den with _ | e0
  · simp
  · exact fmtDec_ne_nil _ _

/-- Characters that never occur in the rendering of a float. -/
theorem fmtRat_not_mem (q : Rat) (c : Char) (hd : isDigitCh c = false)
    (h1 : c ≠ '-') (h2 : c ≠ '.') : c ∉ fmtRat q := by
  intro hc
  rcases fmtRat_chars q c hc with h | h | h
  · exact h1 h
  · exact h2 h
  · rw [h] at hd; cases hd

/-! ## Occurrence deletion (str.replace with an empty replacement) -/

/-- Boolean prefix test. -/
def hasPre : List Char → List Char → Bool
  | [], _ => true
  | _ :: _, [] => false
  | p :: ps, c :: cs => p = c && hasPre ps cs

/-- Fueled worker deleting occurrences of pat left to right. -/
def replaceGo (pat : List Char) : Nat → List Char → List Char
  | _, [] => []
  | 0, s => s
  | fuel + 1, c :: rest =>
      if hasPre pat (c :: rest) then replaceGo pat fuel ((c :: rest).drop pat.length)
      else c :: replaceGo pat fuel rest

/-- Python str.replace(pat, "") for a nonempty pattern: delete every
left-to-right non-overlapping occurrence of pat. -/
def replaceDel (pat s : List Char) : List Char := replaceGo pat s.length s

theorem hasPre_append_self (l t : List Char) : hasPre l (l ++ t) = true := by
  induction l with
  | nil => rfl
  | cons c l ih => simp [hasPre, ih]

theorem replaceGo_no_head (p : Char) (ps s : List Char) (h : p ∉ s) :
    ∀ fuel, replaceGo (p :: ps) fuel s = s := by
  induction s with
  | nil => intro fuel; cases fuel <;> rfl
  | cons c rest ih =>
    intro fuel
    cases fuel with
    | zero => rfl
    | succ f =>
      have hpc : p ≠ c := fun hc => h (by simp [hc])
      have hpre : hasPre (p :: ps) (c :: rest) = false := by
        simp [hasPre, hpc]
      rw [replaceGo, if_neg (by simp [hpre])]
      rw [ih (fun hc => h (by simp [hc])) f]

theorem replaceDel_pre (p : Char) (ps s : List Char) (h : p ∉ s) :
    replaceDel (p :: ps) ((p :: ps) ++ s) = s := by
  unfold replaceDel
  have hlen : ((p :: ps) ++ s).length = (ps ++ s).length + 1 := by simp
  rw [hlen]
  show replaceGo (p :: ps) ((ps ++ s).length + 1) (p :: (ps ++ s)) = s
  rw [replaceGo]
  rw [if_pos (by simpa using hasPre_append_self (p :: ps) s)]
  have hdrop : (p :: (ps ++ s)).drop (p :: ps).length = s := by
    show ((p :: ps) ++ s).drop (p :: ps).length = s
    exact List.drop_left _ _
  rw [hdrop]
  exact replaceGo_no_head p ps s h _

theorem replaceGo_single_end (c : Char) (s : List Char) (h : c ∉ s) :
    ∀ fuel, s.length + 1 ≤ fuel → replaceGo [c] fuel (s ++ [c]) = s := by
  induction s with
  | nil =>
    intro fuel hf
    cases fuel with
    | zero => omega
    | succ f =>
      show replaceGo [c] (f + 1) (c :: []) = []
      rw [replaceGo, if_pos (by simp [hasPre])]
      cases f <;> rfl
  | cons d rest ih =>
    intro fuel hf
    cases fuel with
    | zero => omega
    | succ f =>
      have hcd : c ≠ d := fun hc => h (by simp [hc])
      show replaceGo [c] (f + 1) (d :: (rest ++ [c])) = d :: rest
      rw [replaceGo]
      rw [if_neg (by simp [hasPre, hcd])]
      rw [ih (fun hc => h (by simp [hc])) f (by simp at hf ⊢; omega)]

theorem replaceDel_single_end (c : Char) (s : List Char) (h : c ∉ s) :
    replaceDel [c] (s ++ [c]) = s := by
  unfold replaceDel
  exact replaceGo_single_end c s h _ (by simp)

/-! ## The geo-point codec (WKT string form) -/

/-- The characters of the literal POINT( prefix. -/
def wktPre : List Char := ['P', 'O', 'I', 'N', 'T', '(']

/-- The WKT point literal the storage encoder produces, longitude first:
the f-string POINT({lng} {lat}) of _convert_to_db_format, with the float
values rendered by the decimal printer. -/
def wktPoint (lng lat : Rat) : List Char :=
  wktPre ++ (fmtRat lng ++ (' ' :: (fmtRat lat ++ [')'])))

/-- The token extraction the decoder applies to a stored WKT string:
delete every POINT( and every ) occurrence, then split on whitespace. -/
def wktTokens (s : List Char) : List (List Char) :=
  splitWs (replaceDel [')'] (replaceDel wktPre s))

theorem wktTokens_wktPoint (lng lat : Rat) :
    wktTokens (wktPoint lng lat) = [fmtRat lng, fmtRat lat] := by
  have hPlng : 'P' ∉ fmtRat lng := fmtRat_not_mem _ _ (by decide) (by decide) (by decide)
  have hPlat : 'P' ∉ fmtRat lat := fmtRat_not_mem _ _ (by decide) (by decide) (by decide)
  have hrlng : ')' ∉ fmtRat lng := fmtRat_not_mem _ _ (by decide) (by decide) (by decide)
  have hrlat : ')' ∉ fmtRat lat := fmtRat_not_mem _ _ (by decide) (by decide) (by decide)
  have hslng : ∀ d ∈ fmtRat lng, d ≠ ' ' := fun d hd =>
    fun hds => absurd hd (by rw [hds]; exact fmtRat_not_mem _ _ (by decide) (by decide) (by decide))
  have hslat : ∀ d ∈ fmtRat lat, d ≠ ' ' := fun d hd =>
    fun hds => absurd hd (by rw [hds]; exact fmtRat_not_mem _ _ (by decide) (by decide) (by decide))
  have hbody : 'P' ∉ fmtRat lng ++ (' ' :: (fmtRat lat ++ [')'])) := by
    intro hc
    rcases List.mem_append.mp hc with h1 | h2
    · exact hPlng h1
    · rcases List.mem_cons.mp h2 with h3 | h4
      · cases h3
      · rcases List.mem_append.mp h4 with h5 | h6
        · exact hPlat h5
        · simp at h6
  have h1 : replaceDel wktPre (wktPoint lng lat)
      = fmtRat lng ++ (' ' :: (fmtRat lat ++ [')'])) := by
    rw [wktPoint]
    exact replaceDel_pre 'P' ['O', 'I', 'N', 'T', '('] _ hbody
  have hinner : ')' ∉ fmtRat lng ++ (' ' :: fmtRat lat) := by
    intro hc
    rcases List.mem_append.mp hc with hx | hy
    · exact hrlng hx
    · rcases List.mem_cons.mp hy with h3 | h4
      · cases h3
      · exact hrlat h4
  have h2 : replaceDel [')'] (fmtRat lng ++ (' ' :: (fmtRat lat ++ [')'])))
      = fmtRat lng ++ (' ' :: fmtRat lat) := by
    have hassoc : fmtRat lng ++ (' ' :: (fmtRat lat ++ [')']))
        = (fmtRat lng ++ (' ' :: fmtRat lat)) ++ [')'] := by simp
    rw [hassoc]
    exact replaceDel_single_end ')' _ hinner
  have h3 : splitOnChar ' ' (fmtRat lng ++ (' ' :: fmtRat lat))
      = [fmtRat lng, fmtRat lat] := by
    rw [splitOnChar_append ' ' _ _ hslng, splitOnChar_no_occ ' ' _ hslat]
  rw [wktTokens, h1, h2, splitWs, h3]
  simp [List.filter, fmtRat_ne_nil]

/-! ## Python value semantics used by the services -/

/-- Python truthiness of a runtime value. -/
def truthy : Value → Bool
  | vNull => false
  | vBool b => b
  | vNum q => decide (q ≠ 0)
  | vStr s => !s.data.isEmpty
  | vPoint _ _ => true
  | vList xs => !xs.isEmpty
  | vDict d => !d.isEmpty

/-- Model of Python float(v): succeeds on numbers and booleans, parses
numeric strings, raises (none) on every other shape. -/
def pyFloat : Value → Option Rat
  | vNum q => some q
  | vBool b => some (if b then 1 else 0)
  | vStr s => parseFloatS s.data
  | _ => none

/-! ## The field mapper and geo-point codec of insect_service.py -/

/-- The field_mapping table of _convert_to_db_format.  some (some n) is
a rename to n; some none is the null sentinel (latitude and longitude,
handled by the codec); none means the key is not in the table and passes
through unchanged. -/
def toDbName (k : String) : Option (Option String) :=
  if k = "user_id" then some (some "user_id")
  else if k = "inaturalist_id" then some (some "inaturalist_id")
  else if k = "scientific_name" then some (some "nombre_cientifico")
  else if k = "common_name" then some (some "nombre_comun")
  else if k = "observation_date" then some (some "fecha_observacion")
  else if k = "latitude" then some none
  else if k = "longitude" then some none
  else if k = "condition_id" then some (some "condicion_id")
  else if k = "state_id" then some (some "estado_id")
  else if k = "stage_id" then some (some "etapa_id")
  else if k = "sex_id" then some (some "sexo_id")
  else if k = "description" then some (some "descripcion")
  else if k = "photo_url" then some (some "url_foto")
  else if k = "order" then some (some "orden")
  else if k = "observation_id" then some (some "observacion_id")
  else none

/-- The field_mapping table of _convert_from_db_format (storage names
back to external names; ubicacion is the null sentinel handled by the
decoder). -/
def fromDbName (k : String) : Option (Option String) :=
  if k = "user_id" then some (some "user_id")
  else if k = "inaturalist_id" then some (some "inaturalist_id")
  else if k = "nombre_cientifico" then some (some "scientific_name")
  else if k = "nombre_comun" then some (some "common_name")
  else if k = "fecha_observacion" then some (some "observation_date")
  else if k = "ubicacion" then some none
  else if k = "condicion_id" then some (some "condition_id")
  else if k = "estado_id" then some (some "state_id")
  else if k = "etapa_id" then some (some "stage_id")
  else if k = "sexo_id" then some (some "sex_id")
  else if k = "descripcion" then some (some "description")
  else if k = "created_at" then some (some "created_at")
  else if k = "url_foto" then some (some "photo_url")
  else if k = "orden" then some (some "order")
  else if k = "observacion_id" then some (some "observation_id")
  else none

/-- The generic renaming loop shared by both converters: renamed keys
keep their value, null-sentinel keys are dropped, unknown keys pass
through under their own name. -/
def renamePass (table : String → Option (Option String)) (data : AList) : AList :=
  data.foldl (fun acc kv =>
    match table kv.1 with
    | some (some n) => setKey acc n kv.2
    | some none => acc
    | none => setKey acc kv.1 kv.2) []

/-- Model of _convert_to_db_format of insect_service.py: the renaming pass, then
(when both coordinate keys are present and float() succeeds on both) the
WKT-encoded point under ubicacion.  A float() failure is caught and the
location is simply not included. -/
def convert_to_db_format (data : AList) : AList :=
  let result := renamePass toDbName data
  match lookupA data "latitude", lookupA data "longitude" with
  | some lv, some gv =>
      match pyFloat lv, pyFloat gv with
      | some lat, some lng =>
          setKey result "ubicacion" (vStr (String.mk (wktPoint lng lat)))
      | _, _ => result
  | _, _ => result

/-- Outcome of the location-decoding try block of
_convert_from_db_format. -/
inductive LocOutcome where
  | coords (lng lat : Rat) : LocOutcome
  | defaults : LocOutcome
  | skip : LocOutcome
deriving DecidableEq

/-- The GeoJSON coordinates branch of the decoder.  defaults models an
exception raised inside the try block (caught by the handler); skip
models falling through with no assignment and no exception. -/
def geoCoords : Value → LocOutcome
  | vList [a, b] =>
      match pyFloat a, pyFloat b with
      | some lng, some lat => .coords lng lat
      | _, _ => .defaults
  | vList _ => .skip
  | vStr s =>
      match s.data with
      | [a, b] =>
          match parseFloatS [a], parseFloatS [b] with
          | some lng, some lat => .coords lng lat
          | _, _ => .defaults
      | _ => .skip
  | vDict d => if d.length = 2 then .defaults else .skip
  | _ => .defaults

/-- The full location-decoding block: a WKT string, a point object with
x and y attributes, or a GeoJSON style dict.  A value matching none of
the three shapes falls through with no assignment (skip), it does not
raise. -/
def locDecode : Value → LocOutcome
  | vStr s =>
      match wktTokens s.data with
      | [c0, c1] =>
          match parseFloatS c0, parseFloatS c1 with
          | some lng, some lat => .coords lng lat
          | _, _ => .defaults
      | _ => .skip
  | vPoint x y => .coords x y
  | vDict d =>
      match lookupA d "coordinates" with
      | some cv => geoCoords cv
      | none => .skip
  | _ => .skip

/-- Model of _convert_from_db_format of insect_service.py: the renaming pass,
then the location decoding when a truthy ubicacion value is stored.
Decoded coordinates are assigned longitude first; a caught exception
assigns the 0.0 defaults; a shape mismatch assigns nothing. -/
def convert_from_db_format (data : AList) : AList :=
  let result := renamePass fromDbName data
  match lookupA data "ubicacion" with
  | some v =>
      if truthy v then
        match locDecode v with
        | .coords lng lat =>
            setKey (setKey result "longitude" (vNum lng)) "latitude" (vNum lat)
        | .defaults =>
            setKey (setKey result "longitude" (vNum 0)) "latitude" (vNum 0)
        | .skip => result
      else result
  | none => result

/-- Decoding the encoded WKT point recovers both coordinates (longitude
was printed first, so it is parsed back first). -/
theorem locDecode_wktPoint (lng lat : Rat) (hlng : IsDec lng) (hlat : IsDec lat) :
    locDecode (vStr (String.mk (wktPoint lng lat))) = .coords lng lat := by
  show (match wktTokens (wktPoint lng lat) with
    | [c0, c1] =>
        match parseFloatS c0, parseFloatS c1 with
        | some lng, some lat => LocOutcome.coords lng lat
        | _, _ => LocOutcome.defaults
    | _ => LocOutcome.skip) = LocOutcome.coords lng lat
  rw [wktTokens_wktPoint]
  show (match parseFloatS (fmtRat lng), parseFloatS (fmtRat lat) with
    | some lng, some lat => LocOutcome.coords lng lat
    | _, _ => LocOutcome.defaults) = LocOutcome.coords lng lat
  rw [fmtRat_roundtrip lng hlng, fmtRat_roundtrip lat hlat]

/-! ## The TTL cache (cache_service.py)

time.time() is modelled by an explicit now argument to every operation
that reads the clock. -/

/-- One stored entry: the value and the timestamp set() stamped. -/
structure CacheEntry where
  val : Value
  storedAt : Rat

/-- CacheService: the backing dict and the configured ttl. -/
structure CacheState where
  entries : List (String × CacheEntry)
  ttl_seconds : Rat

/-- CacheService.get: absent for an unknown key; an entry older than ttl
is deleted on access and reported absent; otherwise the stored value is
returned unchanged. -/
def cache_get (c : CacheState) (key : String) (now : Rat) :
    Option Value × CacheState :=
  match lookupA c.entries key with
  | none => (none, c)
  | some e =>
      if now - e.storedAt > c.ttl_seconds then
        (none, { c with entries := delKey c.entries key })
      else (some e.val, c)

/-- CacheService.set: unconditionally overwrite, stamping now. -/
def cache_set (c : CacheState) (key : String) (v : Value) (now : Rat) : CacheState :=
  { c with entries := setKey c.entries key ⟨v, now⟩ }

/-- CacheService.get_size. -/
def cache_size (c : CacheState) : Nat := c.entries.length

/-- CacheService.remove. -/
def cache_remove (c : CacheState) (key : String) : CacheState :=
  { c with entries := delKey c.entries key }

/-- CacheService.clear. -/
def cache_clear (c : CacheState) : CacheState := { c with entries := [] }

/-! ## The upstream query client (inaturalist_service.py) -/

/-- str() of a Python int, as interpolated into cache keys. -/
def intStr (m : Int) : String :=
  String.mk ((if m < 0 then ['-'] else [])
    ++ (if m.natAbs = 0 then ['0'] else natChars m.natAbs))

/-- str() of a Python float, as interpolated into cache keys. -/
def floatStr (q : Rat) : String := String.mk (fmtRat q)

/-- Round half to even of the fraction n / d (d positive): the integer
core of Python round, written with integer arithmetic.  f is the floor,
r the remainder; the fractional part r / d is compared with one half by
comparing 2 r with d. -/
def rndHE (n : Int) (d : Nat) : Int :=
  let f := Int.fdiv n d
  let r := n - f * d
  if 2 * r < (d : Int) then f
  else if 2 * r > (d : Int) then f + 1
  else if f % 2 = 0 then f else f + 1

/-- Python round(x, 4): round half to even at four decimal places
(rndHE applied to x * 10 ^ 4 = (x.num * 10000) / x.den). -/
def round4 (q : Rat) : Rat := mkRat (rndHE (q.num * 10000) q.den) 10000

/-- The cache key of search_observations. -/
def search_key (query locale : String) (per_page page : Int) : String :=
  "search_observations:" ++ query ++ ":" ++ locale ++ ":"
    ++ intStr per_page ++ ":" ++ intStr page

/-- The cache key of get_species_info. -/
def species_key (taxon_id : Int) (locale : String) : String :=
  "species_info:" ++ intStr taxon_id ++ ":" ++ locale

/-- The cache key of get_observations_by_location: coordinates rounded
to four decimal places, the remaining parameters verbatim. -/
def location_key (lat lng : Rat) (locale : String) (radius per_page page : Int) : String :=
  "observations_location:" ++ floatStr (round4 lat) ++ ":" ++ floatStr (round4 lng)
    ++ ":" ++ locale ++ ":" ++ intStr radius ++ ":" ++ intStr per_page
    ++ ":" ++ intStr page

/-- A failed upstream call: the exception httpx raises on a network
error or that raise_for_status raises on a non-2xx response. -/
structure UpErr where
  status : Nat
deriving DecidableEq

/-- The shared body of the three read operations: cache lookup (which
may lazily evict an expired entry), return a truthy cached value
verbatim; otherwise perform the network call, propagating its failure
without touching the cache, or store the successful result under the key
and return it.  The outcome of the (single) network call is passed in as
upstream. -/
def fetchWithCache (c : CacheState) (key : String)
    (upstream : Except UpErr Value) (now : Rat) :
    Except UpErr Value × CacheState :=
  match cache_get c key now with
  | (some v, c1) =>
      if truthy v then (.ok v, c1)
      else
        match upstream with
        | .error e => (.error e, c1)
        | .ok r => (.ok r, cache_set c1 key r now)
  | (none, c1) =>
      match upstream with
      | .error e => (.error e, c1)
      | .ok r => (.ok r, cache_set c1 key r now)

/-- INaturalistService.search_observations. -/
def search_observations (c : CacheState) (query locale : String)
    (per_page page : Int) (upstream : Except UpErr Value) (now : Rat) :
    Except UpErr Value × CacheState :=
  fetchWithCache c (search_key query locale per_page page) upstream now

/-- INaturalistService.get_species_info. -/
def get_species_info (c : CacheState) (taxon_id : Int) (locale : String)
    (upstream : Except UpErr Value) (now : Rat) :
    Except UpErr Value × CacheState :=
  fetchWithCache c (species_key taxon_id locale) upstream now

/-- INaturalistService.get_observations_by_location. -/
def get_observations_by_location (c : CacheState) (lat lng : Rat)
    (locale : String) (radius per_page page : Int)
    (upstream : Except UpErr Value) (now : Rat) :
    Except UpErr Value × CacheState :=
  fetchWithCache c (location_key lat lng locale radius per_page page) upstream now

/-- The hit test the three operations apply to the cache lookup: the
looked-up value must be truthy, not merely present. -/
def truthyHit (c : CacheState) (key : String) (now : Rat) : Bool :=
  match (cache_get c key now).1 with
  | some v => truthy v
  | none => false

theorem cache_get_snd (c : CacheState) (key : String) (now : Rat) :
    (cache_get c key now).2 = c ∨ (cache_get c key now).2 = cache_remove c key := by
  unfold cache_get
  rcases h : lookupA c.entries key with _ | e
  · exact Or.inl rfl
  · dsimp only
    by_cases hexp : now - e.storedAt > c.ttl_seconds
    · rw [if_pos hexp]
      exact Or.inr rfl
    · rw [if_neg hexp]
      exact Or.inl rfl

theorem fetchWithCache_error (c : CacheState) (key : String) (e : UpErr) (now : Rat)
    (h : truthyHit c key now = false) :
    fetchWithCache c key (.error e) now = (.error e, (cache_get c key now).2) := by
  unfold fetchWithCache
  unfold truthyHit at h
  rcases hg : cache_get c key now with ⟨r, c1⟩
  rcases r with _ | v
  · rfl
  · rw [hg] at h
    simp only [truthyHit] at h
    dsimp only
    rw [h]
    simp

/-! ## The datastore and the observation/photo repository
(insect_service.py around the Supabase client) -/

mutual
/-- Structural equality of runtime values: the equality the datastore
applies in its eq filters. -/
def beqV : Value → Value → Bool
  | vNull, vNull => true
  | vBool a, vBool b => a == b
  | vNum a, vNum b => a == b
  | vStr a, vStr b => a == b
  | vPoint a b, vPoint x y => a == x && b == y
  | vList xs, vList ys => beqVL xs ys
  | vDict xs, vDict ys => beqVD xs ys
  | _, _ => false

/-- Elementwise equality of value lists. -/
def beqVL : List Value → List Value → Bool
  | [], [] => true
  | x :: xs, y :: ys => beqV x y && beqVL xs ys
  | _, _ => false

/-- Elementwise equality of binding lists. -/
def beqVD : List (String × Value) → List (String × Value) → Bool
  | [], [] => true
  | (k1, v1) :: xs, (k2, v2) :: ys => k1 == k2 && beqV v1 v2 && beqVD xs ys
  | _, _ => false
end

/-- Does the row carry the given value under the given key (the eq
filter of the datastore). -/
def idMatches (r : AList) (key : String) (v : Value) : Bool :=
  match lookupA r key with
  | some w => beqV w v
  | none => false

/-- The two tables the repository touches plus the id sequence the
datastore uses for generated identifiers (ids are modelled as numbers). -/
structure DB where
  observaciones : List AList
  observacion_fotos : List AList
  nextId : Nat

/-- Row insertion: the datastore assigns the generated id and returns
the stored row (response.data[0]). -/
def dbInsert (rows : List AList) (data : AList) (nid : Nat) :
    List AList × AList :=
  let row := setKey data "id" (vNum (nid : Rat))
  (rows ++ [row], row)

/-- Model of _serialize_uuid_and_date, which converts UUID and datetime values to
strings.  The Value grammar carries identifiers and dates as strings
already, so on this grammar the function is the identity; the definition
is kept to mark the call sites. -/
def serialize_uuid_and_date (d : AList) : AList := d

/-- InsectService.add_observation_photo: serialize, rename
observation_id, order and photo_url to their storage names, convert to
db format, insert, convert the stored row back.  Returns the Python
result dict together with the updated datastore. -/
def add_observation_photo (db : DB) (photo_data : AList) : AList × DB :=
  let p1 := serialize_uuid_and_date photo_data
  let p2 := match lookupA p1 "observation_id" with
    | some v => setKey (delKey p1 "observation_id") "observacion_id" v
    | none => p1
  let p3 := match lookupA p2 "order" with
    | some v => setKey (delKey p2 "order") "orden" v
    | none => p2
  let p4 := match lookupA p3 "photo_url" with
    | some v => setKey (delKey p3 "photo_url") "url_foto" v
    | none => p3
  let db_data := convert_to_db_format p4
  let ins := dbInsert db.observacion_fotos db_data db.nextId
  let created := convert_from_db_format ins.2
  ([("success", vBool true), ("photo", vDict created)],
   { db with observacion_fotos := ins.1, nextId := db.nextId + 1 })

/-- The embedded select observaciones(*, observacion_fotos(*)) filtered
by id: each matching parent row is returned together with its photo rows
under the relation name. -/
def selectObsWithFotos (db : DB) (oid : Value) : List AList :=
  (db.observaciones.filter (fun r => idMatches r "id" oid)).map (fun r =>
    setKey r "observacion_fotos"
      (vList ((db.observacion_fotos.filter
        (fun p => idMatches p "observacion_id" oid)).map vDict)))

/-- Elementwise conversion of an embedded photo row (photo rows are
dicts in every reachable state). -/
def convertFotoV : Value → Value
  | vDict d => vDict (convert_from_db_format d)
  | v => v

/-- InsectService.get_observation: fetch the row with its photos, run
the storage-to-external mapper, re-extract WKT coordinates (the
duplicated block in the source; a parse failure there is caught without
assigning defaults, and a partial assignment of longitude alone is
possible), default missing coordinates to 0.0, and convert the photo
rows.  Absence of the row is a not-found failure dict. -/
def get_observation (db : DB) (oid : Value) : AList :=
  match selectObsWithFotos db oid with
  | [] => [("success", vBool false), ("error", vStr "Observation not found")]
  | data0 :: _ =>
    let od := convert_from_db_format data0
    let od2 := match lookupA data0 "ubicacion" with
      | some v =>
          if truthy v then
            match v with
            | vStr s =>
                match wktTokens s.data with
                | [c0, c1] =>
                    match parseFloatS c0 with
                    | none => od
                    | some lng =>
                        match parseFloatS c1 with
                        | some lat =>
                            setKey (setKey od "longitude" (vNum lng)) "latitude" (vNum lat)
                        | none => setKey od "longitude" (vNum lng)
                | _ => od
            | _ => od
          else od
      | none => od
    let od3 :=
      if (lookupA od2 "latitude").isNone ∨ (lookupA od2 "longitude").isNone then
        setKey (setKey od2 "latitude" (vNum 0)) "longitude" (vNum 0)
      else od2
    let od4 := match lookupA data0 "observacion_fotos" with
      | some (vList ps) => setKey od3 "photos" (vList (ps.map convertFotoV))
      | _ => setKey od3 "photos" (vList [])
    [("success", vBool true), ("observation", vDict od4)]

/-- Python `v is None` on a runtime value. -/
def isNoneV : Value → Bool
  | vNull => true
  | _ => false

theorem isNoneV_eq_false {v : Value} (hv : v ≠ vNull) : isNoneV v = false := by
  cases v <;> first | rfl | exact absurd rfl hv

/-- The order-defaulting step of the photo loop: when the order key is
missing or null, set orden to the 1-based position (the order key, when
present with a null value, is left in place); otherwise move the order
value to orden. -/
def defaultOrden (pd1 : AList) (i : Nat) : AList :=
  match lookupA pd1 "order" with
  | none => setKey pd1 "orden" (vNum ((i + 1 : Nat) : Rat))
  | some w =>
      if isNoneV w then setKey pd1 "orden" (vNum ((i + 1 : Nat) : Rat))
      else setKey (delKey pd1 "order") "orden" w

/-- The photo loop of create_observation: enumerate(photos) with the
0-based index i; attach the parent id, default the order, then add the
photo.  Collects the photo dicts of the successful adds. -/
def addPhotosLoop (oid : Value) : DB → List Value → Nat → List Value × DB
  | db, [], _ => ([], db)
  | db, p :: rest, i =>
      let pd0 := match p with | vDict d => d | _ => []
      let pd2 := defaultOrden (setKey pd0 "observacion_id" oid) i
      let step := add_observation_photo db pd2
      let further := addPhotosLoop oid step.2 rest (i + 1)
      let created := match lookupA step.1 "success", lookupA step.1 "photo" with
        | some (vBool true), some ph => ph :: further.1
        | _, _ => further.1
      (created, further.2)

/-- InsectService.create_observation: pop the nested photos, remember
the original coordinates, serialize, convert, insert the observation,
run the photo loop, re-read the stored observation, and shape the
response (falling back to a direct conversion of the insert result when
the re-read fails).  Returns the Python result dict and the updated
datastore. -/
def create_observation (db : DB) (observation_data : AList) : AList × DB :=
  let photos := match lookupA observation_data "photos" with
    | some (vList ps) => ps
    | _ => []
  let data1 := delKey observation_data "photos"
  let original_latitude := lookupA observation_data "latitude"
  let original_longitude := lookupA observation_data "longitude"
  let data2 := serialize_uuid_and_date data1
  let db_data := convert_to_db_format data2
  let ins := dbInsert db.observaciones db_data db.nextId
  let db1 : DB := { db with observaciones := ins.1, nextId := db.nextId + 1 }
  let oid := (lookupA ins.2 "id").getD vNull
  let loop := addPhotosLoop oid db1 photos 0
  let db2 := loop.2
  let obsResult := get_observation db2 oid
  let result :=
    match lookupA obsResult "success" with
    | some (vBool true) =>
        let co := match lookupA obsResult "observation" with
          | some (vDict d) => d
          | _ => []
        let co1 := setKey co "photos" (vList loop.1)
        if ((lookupA co1 "latitude").isNone ∨ (lookupA co1 "longitude").isNone)
            ∧ original_latitude.isSome ∧ original_longitude.isSome then
          match pyFloat (original_latitude.getD vNull),
                pyFloat (original_longitude.getD vNull) with
          | some la, some lo =>
              [("success", vBool true),
               ("observation",
                vDict (setKey (setKey co1 "latitude" (vNum la)) "longitude" (vNum lo)))]
          | _, _ => [("success", vBool false), ("error", vStr "create failed")]
        else
          [("success", vBool true), ("observation", vDict co1)]
    | _ =>
        let co := convert_from_db_format ins.2
        let co1 := setKey co "photos" (vList loop.1)
        if (lookupA co1 "latitude").isNone ∨ (lookupA co1 "longitude").isNone then
          if original_latitude.isSome ∧ original_longitude.isSome then
            match pyFloat (original_latitude.getD vNull),
                  pyFloat (original_longitude.getD vNull) with
            | some la, some lo =>
                [("success", vBool true),
                 ("observation",
                  vDict (setKey (setKey co1 "latitude" (vNum la)) "longitude" (vNum lo)))]
            | _, _ => [("success", vBool false), ("error", vStr "create failed")]
          else
            [("success", vBool true),
             ("observation",
              vDict (setKey (setKey co1 "latitude" (vNum 0)) "longitude" (vNum 0)))]
        else
          [("success", vBool true), ("observation", vDict co1)]
  (result, db2)

/-- Application of an UPDATE SET to one row: each written column
overwrites its previous value, every other column is untouched. -/
def applyUpd (r : AList) (upd : AList) : AList :=
  upd.foldl (fun acc kv => setKey acc kv.1 kv.2) r

/-- InsectService.update_observation: serialize, convert the partial
external fields to storage fields, apply the update to the matching
rows, then re-read.  No matching row is a not-found failure dict. -/
def update_observation (db : DB) (oid : Value) (observation_data : AList) :
    AList × DB :=
  let data1 := serialize_uuid_and_date observation_data
  let db_data := convert_to_db_format data1
  let matched := db.observaciones.filter (fun r => idMatches r "id" oid)
  let newRows := db.observaciones.map
    (fun r => if idMatches r "id" oid then applyUpd r db_data else r)
  let db1 : DB := { db with observaciones := newRows }
  match matched with
  | [] => ([("success", vBool false), ("error", vStr "Observation not found")], db1)
  | _ => (get_observation db1 oid, db1)

/-! ## The request-validation boundary
(models/api_models.py ObservationCreate and routers/observations.py) -/

/-- Modelled Pydantic v1 float-field coercion: numbers and booleans
pass, numeric strings parse, every other shape is a validation failure.
This is the check FastAPI applies to latitude and longitude before the
create endpoint body reaches the service. -/
def coerceFloat (v : Value) : Option Rat := pyFloat v

/-- Model of parsing a request body into ObservationCreate and taking
.dict() of the result: every required field must be present and the two
coordinate fields must coerce to floats; the optional description
defaults to null and the optional photos to the empty list.  The UUID,
date and int format checks of the remaining fields, and the nested
validation of photo entries, are not modelled: they could only reject
further bodies, and no claim depends on them. -/
def validateObservationCreate (body : AList) : Option AList :=
  match lookupA body "latitude", lookupA body "longitude" with
  | some latv, some lngv =>
      match coerceFloat latv, coerceFloat lngv with
      | some lat, some lng =>
          if (lookupA body "user_id").isSome ∧ (lookupA body "inaturalist_id").isSome
              ∧ (lookupA body "scientific_name").isSome
              ∧ (lookupA body "common_name").isSome
              ∧ (lookupA body "observation_date").isSome
              ∧ (lookupA body "condition_id").isSome
              ∧ (lookupA body "state_id").isSome
              ∧ (lookupA body "stage_id").isSome
              ∧ (lookupA body "sex_id").isSome then
            some [("user_id", (lookupA body "user_id").getD vNull),
                  ("inaturalist_id", (lookupA body "inaturalist_id").getD vNull),
                  ("scientific_name", (lookupA body "scientific_name").getD vNull),
                  ("common_name", (lookupA body "common_name").getD vNull),
                  ("observation_date", (lookupA body "observation_date").getD vNull),
                  ("latitude", vNum lat), ("longitude", vNum lng),
                  ("condition_id", (lookupA body "condition_id").getD vNull),
                  ("state_id", (lookupA body "state_id").getD vNull),
                  ("stage_id", (lookupA body "stage_id").getD vNull),
                  ("sex_id", (lookupA body "sex_id").getD vNull),
                  ("description", (lookupA body "description").getD vNull),
                  ("photos", (lookupA body "photos").getD (vList []))]
          else none
      | _, _ => none
  | _, _ => none

/-- Outcome of the create endpoint: a 422 validation rejection or the
service result. -/
inductive EndpointResult where
  | validationError : EndpointResult
  | ok (result : AList) : EndpointResult

/-- The POST /api/observations handler: FastAPI validates the body
against ObservationCreate before the handler body runs; on failure the
request is rejected with a client error and the service (hence the
datastore) is never touched. -/
def create_observation_endpoint (db : DB) (body : AList) :
    EndpointResult × DB :=
  match validateObservationCreate body with
  | none => (.validationError, db)
  | some obs =>
      let r := create_observation db obs
      (.ok r.1, r.2)

/-! ## Outcome lemmas for the storage-to-external mapper -/

theorem convert_from_db_coords (data : AList) (v : Value) (lng lat : Rat)
    (hu : lookupA data "ubicacion" = some v) (ht : truthy v = true)
    (hd : locDecode v = .coords lng lat) :
    convert_from_db_format data
      = setKey (setKey (renamePass fromDbName data) "longitude" (vNum lng))
          "latitude" (vNum lat) := by
  unfold convert_from_db_format
  rw [hu]
  dsimp only
  rw [ht]
  simp only [if_true]
  rw [hd]

theorem convert_from_db_defaults (data : AList) (v : Value)
    (hu : lookupA data "ubicacion" = some v) (ht : truthy v = true)
    (hd : locDecode v = .defaults) :
    convert_from_db_format data
      = setKey (setKey (renamePass fromDbName data) "longitude" (vNum 0))
          "latitude" (vNum 0) := by
  unfold convert_from_db_format
  rw [hu]
  dsimp only
  rw [ht]
  simp only [if_true]
  rw [hd]

theorem convert_from_db_skip (data : AList) (v : Value)
    (hu : lookupA data "ubicacion" = some v) (ht : truthy v = true)
    (hd : locDecode v = .skip) :
    convert_from_db_format data = renamePass fromDbName data := by
  unfold convert_from_db_format
  rw [hu]
  dsimp only
  rw [ht]
  simp only [if_true]
  rw [hd]

/-! ## Claim theorems -/

/-- C5: the geo-point codec produces the well-known-text literal
POINT(lng lat) with longitude first; decoding the encoding of any pair
of (decimal) numbers, negative and zero values included, recovers
exactly the pair; and decoding a malformed string yields a recoverable
failure outcome (the caught-exception defaults for a POINT form with
non-numeric coordinates, the no-assignment fallthrough for any other
malformed string), never a crash: the decoder is a total function. -/
theorem C5_geo_codec_roundtrip :
    (∀ lat lng : Rat, wktPoint lng lat
        = wktPre ++ (fmtRat lng ++ (' ' :: (fmtRat lat ++ [')'])))) ∧
    (∀ lat lng : Rat, IsDec lat → IsDec lng →
        locDecode (vStr (String.mk (wktPoint lng lat)))
          = .coords lng lat) ∧
    locDecode (vStr "POINT(a b)") = .defaults ∧
    locDecode (vStr "garbage") = .skip := by
  refine ⟨fun lat lng => rfl, fun lat lng hlat hlng => ?_, by decide, by decide⟩
  exact locDecode_wktPoint lng lat hlng hlat

/-- C5 witness: the round trip evaluated on concrete coordinates,
including a negative (-3/2) and a zero coordinate. -/
theorem C5_geo_codec_roundtrip_witness :
    locDecode (vStr (String.mk (wktPoint (mkRat (-3) 2) (0 : Rat))))
      = .coords (mkRat (-3) 2) (0 : Rat) :=
  C5_geo_codec_roundtrip.2.1 0 (mkRat (-3) 2) (by decide) (by decide)

/-- C4 counterexample: the claim says a location value whose decoding
fails always yields 0.0 defaults, never omitted coordinates.  On the
stored record with the unparseable location string garbage, the mapper
assigns nothing: both coordinates are absent from its output. -/
theorem C4_counterexample :
    lookupA (convert_from_db_format [("ubicacion", Value.vStr "garbage")]) "latitude"
        = none ∧
    lookupA (convert_from_db_format [("ubicacion", Value.vStr "garbage")]) "longitude"
        = none :=
  ⟨rfl, rfl⟩

/-- C4 amended: no error is ever raised (the mapper is a total
function), and the 0.0/0.0 defaults are produced exactly when the
decoding raises inside the try block (a matched shape whose numeric
parse fails); a location value matching none of the accepted shapes, or
a WKT string splitting into a token count other than two, falls through
without assigning coordinates, leaving them omitted. -/
theorem C4_amended (data : AList) (v : Value)
    (hu : lookupA data "ubicacion" = some v) (ht : truthy v = true) :
    (locDecode v = .defaults →
      lookupA (convert_from_db_format data) "latitude" = some (Value.vNum 0) ∧
      lookupA (convert_from_db_format data) "longitude" = some (Value.vNum 0)) ∧
    (locDecode v = .skip →
      convert_from_db_format data = renamePass fromDbName data) := by
  constructor
  · intro hd
    rw [convert_from_db_defaults data v hu ht hd]
    constructor
    · exact lookupA_setKey_self _ _ _
    · rw [lookupA_setKey_other _ _ _ _ (by decide)]
      exact lookupA_setKey_self _ _ _
  · intro hd
    exact convert_from_db_skip data v hu ht hd

/-- C4 witness: the amended statement evaluated on a record whose
stored POINT form has non-numeric coordinates. -/
theorem C4_amended_witness :
    lookupA (convert_from_db_format [("ubicacion", Value.vStr "POINT(a b)")]) "latitude"
        = some (Value.vNum 0) ∧
    lookupA (convert_from_db_format [("ubicacion", Value.vStr "POINT(a b)")]) "longitude"
        = some (Value.vNum 0) :=
  (C4_amended [("ubicacion", Value.vStr "POINT(a b)")] (Value.vStr "POINT(a b)")
    rfl (by decide)).1 (by decide)

/-- C6: the radius-search cache key consists of the operation tag, the
two coordinates rounded to four decimal places, and locale, radius,
perPage and page verbatim.  Any two calls whose parameters agree after
rounding produce identical keys; the coordinates 12.13449 and 12.13451
(both rounding to 12.1345) produce the same key, while 12.1350 produces
a different one. -/
theorem C6_location_key_rounding :
    (∀ (lat1 lng1 lat2 lng2 : Rat) (locale : String) (radius pp pg : Int),
      round4 lat1 = round4 lat2 → round4 lng1 = round4 lng2 →
      location_key lat1 lng1 locale radius pp pg
        = location_key lat2 lng2 locale radius pp pg) ∧
    location_key (mkRat 1213449 100000) (mkRat 1213449 100000) "es" 50 10 1
      = location_key (mkRat 1213451 100000) (mkRat 1213451 100000) "es" 50 10 1 ∧
    location_key (mkRat 12135 1000) (mkRat 12135 1000) "es" 50 10 1
      ≠ location_key (mkRat 1213449 100000) (mkRat 1213449 100000) "es" 50 10 1 := by
  refine ⟨?_, by decide, by decide⟩
  intro lat1 lng1 lat2 lng2 locale radius pp pg h1 h2
  unfold location_key
  rw [h1, h2]

/-- C6 witness: the stability conjunct applied to two concrete parameter
lists that agree only after rounding. -/
theorem C6_location_key_rounding_witness :
    location_key (mkRat 1213449 100000) (mkRat 500001 100000) "en" 25 5 2
      = location_key (mkRat 1213451 100000) (mkRat 5 1) "en" 25 5 2 :=
  C6_location_key_rounding.1 (mkRat 1213449 100000) (mkRat 500001 100000)
    (mkRat 1213451 100000) (mkRat 5 1) "en" 25 5 2 (by decide) (by decide)

/-- C2: the TTL cache contract.  get of an unknown key is absent and
leaves the cache unchanged; get of a key stored longer ago than ttl
deletes the entry (the size drops by one) and reports absent; get of an
unexpired key returns the stored value unchanged; and set followed
immediately by get returns the value just set. -/
theorem C2_ttl_cache_contract (c : CacheState) (k : String) (v : Value) (now : Rat) :
    (lookupA c.entries k = none → cache_get c k now = (none, c)) ∧
    (∀ e : CacheEntry, lookupA c.entries k = some e →
      now - e.storedAt > c.ttl_seconds →
      (cache_get c k now).1 = none ∧
      ((c.entries.map Prod.fst).Nodup →
        cache_size (cache_get c k now).2 + 1 = cache_size c)) ∧
    (∀ e : CacheEntry, lookupA c.entries k = some e →
      ¬ now - e.storedAt > c.ttl_seconds →
      cache_get c k now = (some e.val, c)) ∧
    (0 ≤ c.ttl_seconds →
      (cache_get (cache_set c k v now) k now).1 = some v) := by
  refine ⟨?_, ?_, ?_, ?_⟩
  · intro h
    unfold cache_get
    rw [h]
  · intro e he hexp
    unfold cache_get
    rw [he]
    dsimp only
    rw [if_pos hexp]
    refine ⟨rfl, fun hnodup => ?_⟩
    show (delKey c.entries k).length + 1 = c.entries.length
    exact delKey_length_of_mem c.entries k (by rw [he]; rfl) hnodup
  · intro e he hexp
    unfold cache_get
    rw [he]
    dsimp only
    rw [if_neg hexp]
  · intro httl
    unfold cache_get cache_set
    dsimp only
    rw [lookupA_setKey_self]
    dsimp only
    rw [if_neg (by rw [sub_self]; exact not_lt.mpr httl)]

/-- C2 witness: set-then-get returns the stored value on a concrete
cache, and an expired concrete entry is reported absent. -/
theorem C2_ttl_cache_contract_witness :
    (cache_get (cache_set ⟨[], 10⟩ "k" (Value.vNum 7) 0) "k" 0).1
        = some (Value.vNum 7) ∧
    (cache_get ⟨[("k", ⟨Value.vNum 7, 0⟩)], 1⟩ "k" 5).1 = none :=
  ⟨(C2_ttl_cache_contract ⟨[], 10⟩ "k" (Value.vNum 7) 0).2.2.2 (by norm_num),
   ((C2_ttl_cache_contract ⟨[("k", ⟨Value.vNum 7, 0⟩)], 1⟩ "k" (Value.vNum 0) 5).2.1
      ⟨Value.vNum 7, 0⟩ rfl (by norm_num)).1⟩

/-- C3 counterexample: the claim asserts that on an upstream failure the
cache state is unchanged.  With an expired entry stored under the
computed key, the failing search call propagates the error but the
lookup it performs first lazily evicts the expired entry: the final
cache differs from the initial one. -/
theorem C3_counterexample :
    (search_observations ⟨[("search_observations:q:es:10:1", ⟨Value.vNum 1, 0⟩)], 1⟩
        "q" "es" 10 1 (.error ⟨500⟩) 5).1 = .error ⟨500⟩ ∧
    (search_observations ⟨[("search_observations:q:es:10:1", ⟨Value.vNum 1, 0⟩)], 1⟩
        "q" "es" 10 1 (.error ⟨500⟩) 5).2.entries.length
      ≠ ([("search_observations:q:es:10:1", (⟨Value.vNum 1, 0⟩ : CacheEntry))]).length := by
  have hget : cache_get ⟨[("search_observations:q:es:10:1", ⟨Value.vNum 1, 0⟩)], 1⟩
      "search_observations:q:es:10:1" 5 = (none, ⟨[], 1⟩) := by
    unfold cache_get
    rw [show lookupA [("search_observations:q:es:10:1", (⟨Value.vNum 1, 0⟩ : CacheEntry))]
        "search_observations:q:es:10:1" = some ⟨Value.vNum 1, 0⟩ from rfl]
    dsimp only
    rw [if_pos (show (5 : Rat) - 0 > 1 by norm_num)]
    rfl
  have hrun : search_observations ⟨[("search_observations:q:es:10:1", ⟨Value.vNum 1, 0⟩)], 1⟩
      "q" "es" 10 1 (.error ⟨500⟩) 5 = (.error ⟨500⟩, ⟨[], 1⟩) := by
    unfold search_observations fetchWithCache
    rw [show search_key "q" "es" 10 1 = "search_observations:q:es:10:1" by decide, hget]
  rw [hrun]
  exact ⟨rfl, by decide⟩

/-- C3 amended: when the upstream call of any of the three read
operations fails and the cache lookup produced no truthy hit, the
failure propagates to the caller and no entry is written: the final
cache is exactly the post-lookup cache, which equals the initial cache
or, when the lookup lazily evicted an expired entry for the computed
key, the initial cache with that one entry removed. -/
theorem C3_amended_failure_never_cached (c : CacheState)
    (query locale : String) (taxon_id radius per_page page : Int)
    (lat lng : Rat) (e : UpErr) (now : Rat) :
    (truthyHit c (search_key query locale per_page page) now = false →
      search_observations c query locale per_page page (.error e) now
        = (.error e, (cache_get c (search_key query locale per_page page) now).2)) ∧
    (truthyHit c (species_key taxon_id locale) now = false →
      get_species_info c taxon_id locale (.error e) now
        = (.error e, (cache_get c (species_key taxon_id locale) now).2)) ∧
    (truthyHit c (location_key lat lng locale radius per_page page) now = false →
      get_observations_by_location c lat lng locale radius per_page page
          (.error e) now
        = (.error e,
           (cache_get c (location_key lat lng locale radius per_page page) now).2)) ∧
    (∀ key, (cache_get c key now).2 = c
      ∨ (cache_get c key now).2 = cache_remove c key) :=
  ⟨fun h => fetchWithCache_error c _ e now h,
   fun h => fetchWithCache_error c _ e now h,
   fun h => fetchWithCache_error c _ e now h,
   fun key => cache_get_snd c key now⟩

/-- C3 witness: a failing search against an empty cache propagates the
error and performs no write. -/
theorem C3_amended_failure_never_cached_witness :
    search_observations ⟨[], 1⟩ "q" "es" 10 1 (.error ⟨500⟩) 0
      = (.error ⟨500⟩, (cache_get ⟨[], 1⟩ (search_key "q" "es" 10 1) 0).2) :=
  (C3_amended_failure_never_cached ⟨[], 1⟩ "q" "es" 5 50 10 1 1 2 ⟨500⟩ 0).1 rfl

/-- C10: each of the three operations tests the cache lookup for
truthiness, not presence.  An unexpired entry holding a falsy value (an
empty dict, an empty list, an empty string) is treated as a miss: the
upstream call is issued and its result overwrites the entry. -/
theorem C10_falsy_cached_value_is_miss :
    (search_observations
        ⟨[(search_key "q" "es" 10 1, ⟨Value.vDict [], 0⟩)], 100⟩
        "q" "es" 10 1 (.ok (Value.vNum 7)) 0
      = (.ok (Value.vNum 7),
         ⟨[(search_key "q" "es" 10 1, ⟨Value.vNum 7, 0⟩)], 100⟩)) ∧
    (get_species_info
        ⟨[(species_key 5 "es", ⟨Value.vList [], 0⟩)], 100⟩
        5 "es" (.ok (Value.vNum 8)) 0
      = (.ok (Value.vNum 8),
         ⟨[(species_key 5 "es", ⟨Value.vNum 8, 0⟩)], 100⟩)) ∧
    (get_observations_by_location
        ⟨[(location_key 1 2 "es" 50 10 1, ⟨Value.vStr "", 0⟩)], 100⟩
        1 2 "es" 50 10 1 (.ok (Value.vNum 9)) 0
      = (.ok (Value.vNum 9),
         ⟨[(location_key 1 2 "es" 50 10 1, ⟨Value.vNum 9, 0⟩)], 100⟩)) := by
  refine ⟨?_, ?_, ?_⟩
  · have hget : cache_get ⟨[(search_key "q" "es" 10 1, ⟨Value.vDict [], 0⟩)], 100⟩
        (search_key "q" "es" 10 1) 0
        = (some (Value.vDict []),
           ⟨[(search_key "q" "es" 10 1, ⟨Value.vDict [], 0⟩)], 100⟩) := by
      unfold cache_get
      rw [show lookupA [(search_key "q" "es" 10 1, (⟨Value.vDict [], 0⟩ : CacheEntry))]
          (search_key "q" "es" 10 1) = some ⟨Value.vDict [], 0⟩ from rfl]
      dsimp only
      rw [if_neg (show ¬ (0 : Rat) - 0 > 100 by norm_num)]
    unfold search_observations fetchWithCache
    rw [hget]
    rfl
  · have hget : cache_get ⟨[(species_key 5 "es", ⟨Value.vList [], 0⟩)], 100⟩
        (species_key 5 "es") 0
        = (some (Value.vList []),
           ⟨[(species_key 5 "es", ⟨Value.vList [], 0⟩)], 100⟩) := by
      unfold cache_get
      rw [show lookupA [(species_key 5 "es", (⟨Value.vList [], 0⟩ : CacheEntry))]
          (species_key 5 "es") = some ⟨Value.vList [], 0⟩ from rfl]
      dsimp only
      rw [if_neg (show ¬ (0 : Rat) - 0 > 100 by norm_num)]
    unfold get_species_info fetchWithCache
    rw [hget]
    rfl
  · have hget : cache_get ⟨[(location_key 1 2 "es" 50 10 1, ⟨Value.vStr "", 0⟩)], 100⟩
        (location_key 1 2 "es" 50 10 1) 0
        = (some (Value.vStr ""),
           ⟨[(location_key 1 2 "es" 50 10 1, ⟨Value.vStr "", 0⟩)], 100⟩) := by
      unfold cache_get
      rw [show lookupA [(location_key 1 2 "es" 50 10 1, (⟨Value.vStr "", 0⟩ : CacheEntry))]
          (location_key 1 2 "es" 50 10 1) = some ⟨Value.vStr "", 0⟩ from rfl]
      dsimp only
      rw [if_neg (show ¬ (0 : Rat) - 0 > 100 by norm_num)]
    unfold get_observations_by_location fetchWithCache
    rw [hget]
    rfl

/-- An ExternalObservation record: the wire shape of an observation,
with numeric coordinates and every other field an arbitrary value. -/
structure ExtObs where
  idv : Value
  user_id : Value
  inaturalist_id : Value
  scientific_name : Value
  common_name : Value
  observation_date : Value
  latitude : Rat
  longitude : Rat
  condition_id : Value
  state_id : Value
  stage_id : Value
  sex_id : Value
  description : Value
  created_at : Value
  photos : Value

/-- The dict of an ExternalObservation, fields in the wire order. -/
def extToAList (o : ExtObs) : AList :=
  [("id", o.idv), ("user_id", o.user_id), ("inaturalist_id", o.inaturalist_id),
   ("scientific_name", o.scientific_name), ("common_name", o.common_name),
   ("observation_date", o.observation_date),
   ("latitude", Value.vNum o.latitude), ("longitude", Value.vNum o.longitude),
   ("condition_id", o.condition_id), ("state_id", o.state_id),
   ("stage_id", o.stage_id), ("sex_id", o.sex_id),
   ("description", o.description), ("created_at", o.created_at),
   ("photos", o.photos)]

/-- C1: for every ExternalObservation with (decimal) numeric
coordinates, mapping to the storage shape and back reproduces latitude
and longitude exactly and leaves every other field present with an
unchanged value. -/
theorem C1_roundtrip_mapping (o : ExtObs)
    (hlat : IsDec o.latitude) (hlng : IsDec o.longitude) :
    lookupA (convert_from_db_format (convert_to_db_format (extToAList o))) "latitude"
        = some (Value.vNum o.latitude) ∧
    lookupA (convert_from_db_format (convert_to_db_format (extToAList o))) "longitude"
        = some (Value.vNum o.longitude) ∧
    ∀ k, k ≠ "latitude" → k ≠ "longitude" →
      lookupA (convert_from_db_format (convert_to_db_format (extToAList o))) k
        = lookupA (extToAList o) k := by
  have hdec := locDecode_wktPoint o.longitude o.latitude hlng hlat
  have hfwd : convert_to_db_format (extToAList o)
      = [("id", o.idv), ("user_id", o.user_id), ("inaturalist_id", o.inaturalist_id),
         ("nombre_cientifico", o.scientific_name), ("nombre_comun", o.common_name),
         ("fecha_observacion", o.observation_date), ("condicion_id", o.condition_id),
         ("estado_id", o.state_id), ("etapa_id", o.stage_id), ("sexo_id", o.sex_id),
         ("descripcion", o.description), ("created_at", o.created_at),
         ("photos", o.photos),
         ("ubicacion",
          Value.vStr (String.mk (wktPoint o.longitude o.latitude)))] := rfl
  rw [hfwd]
  have hconv : convert_from_db_format
        [("id", o.idv), ("user_id", o.user_id), ("inaturalist_id", o.inaturalist_id),
         ("nombre_cientifico", o.scientific_name), ("nombre_comun", o.common_name),
         ("fecha_observacion", o.observation_date), ("condicion_id", o.condition_id),
         ("estado_id", o.state_id), ("etapa_id", o.stage_id), ("sexo_id", o.sex_id),
         ("descripcion", o.description), ("created_at", o.created_at),
         ("photos", o.photos),
         ("ubicacion", Value.vStr (String.mk (wktPoint o.longitude o.latitude)))]
      = setKey (setKey
          [("id", o.idv), ("user_id", o.user_id), ("inaturalist_id", o.inaturalist_id),
           ("scientific_name", o.scientific_name), ("common_name", o.common_name),
           ("observation_date", o.observation_date), ("condition_id", o.condition_id),
           ("state_id", o.state_id), ("stage_id", o.stage_id), ("sex_id", o.sex_id),
           ("description", o.description), ("created_at", o.created_at),
           ("photos", o.photos)]
          "longitude" (Value.vNum o.longitude)) "latitude" (Value.vNum o.latitude) := by
    rw [convert_from_db_coords
      [("id", o.idv), ("user_id", o.user_id), ("inaturalist_id", o.inaturalist_id),
       ("nombre_cientifico", o.scientific_name), ("nombre_comun", o.common_name),
       ("fecha_observacion", o.observation_date), ("condicion_id", o.condition_id),
       ("estado_id", o.state_id), ("etapa_id", o.stage_id), ("sexo_id", o.sex_id),
       ("descripcion", o.description), ("created_at", o.created_at),
       ("photos", o.photos),
       ("ubicacion", Value.vStr (String.mk (wktPoint o.longitude o.latitude)))]
      (Value.vStr (String.mk (wktPoint o.longitude o.latitude)))
      o.longitude o.latitude rfl rfl hdec]
    rfl
  rw [hconv]
  refine ⟨lookupA_setKey_self _ _ _, ?_, ?_⟩
  · rw [lookupA_setKey_other _ _ _ _ (by decide)]
    exact lookupA_setKey_self _ _ _
  · intro k hk1 hk2
    rw [lookupA_setKey_other _ _ _ _ hk1, lookupA_setKey_other _ _ _ _ hk2]
    by_cases h1 : k = "id"
    · subst h1; rfl
    by_cases h2 : k = "user_id"
    · subst h2; rfl
    by_cases h3 : k = "inaturalist_id"
    · subst h3; rfl
    by_cases h4 : k = "scientific_name"
    · subst h4; rfl
    by_cases h5 : k = "common_name"
    · subst h5; rfl
    by_cases h6 : k = "observation_date"
    · subst h6; rfl
    by_cases h7 : k = "condition_id"
    · subst h7; rfl
    by_cases h8 : k = "state_id"
    · subst h8; rfl
    by_cases h9 : k = "stage_id"
    · subst h9; rfl
    by_cases h10 : k = "sex_id"
    · subst h10; rfl
    by_cases h11 : k = "description"
    · subst h11; rfl
    by_cases h12 : k = "created_at"
    · subst h12; rfl
    by_cases h13 : k = "photos"
    · subst h13; rfl
    simp only [lookupA, extToAList, if_neg h1, if_neg h2, if_neg h3, if_neg h4,
      if_neg h5, if_neg h6, if_neg h7, if_neg h8, if_neg h9, if_neg h10,
      if_neg h11, if_neg h12, if_neg h13, if_neg hk1, if_neg hk2]

/-- C7: a create-observation request whose latitude or longitude is
present but non-numeric is caught by the validation boundary before any
write is attempted: the endpoint rejects it as a client error without
invoking the service, and the datastore is unchanged. -/
theorem C7_validation_blocks_write (db : DB) (body : AList)
    (h : (∃ v, lookupA body "latitude" = some v ∧ coerceFloat v = none) ∨
         (∃ v, lookupA body "longitude" = some v ∧ coerceFloat v = none)) :
    create_observation_endpoint db body = (.validationError, db) := by
  suffices hval : validateObservationCreate body = none by
    unfold create_observation_endpoint
    rw [hval]
  unfold validateObservationCreate
  rcases h with ⟨v, hv, hc⟩ | ⟨v, hv, hc⟩
  · rw [hv]
    rcases hlng : lookupA body "longitude" with _ | w
    · rfl
    · dsimp only
      rw [hc]
  · rw [hv]
    rcases hlat : lookupA body "latitude" with _ | w
    · rfl
    · dsimp only
      rw [hc]
      rcases hcw : coerceFloat w with _ | z <;> rfl

/-- C7 witness: a concrete body with the non-numeric latitude abc is
rejected and the datastore stays empty. -/
theorem C7_validation_blocks_write_witness :
    create_observation_endpoint ⟨[], [], 0⟩
        [("latitude", Value.vStr "abc"), ("longitude", Value.vNum 1)]
      = (.validationError, ⟨[], [], 0⟩) :=
  C7_validation_blocks_write ⟨[], [], 0⟩
    [("latitude", Value.vStr "abc"), ("longitude", Value.vNum 1)]
    (Or.inl ⟨Value.vStr "abc", rfl, rfl⟩)

/-- An ExternalPhoto as submitted inside a create-observation payload
(PhotoCreateNested): a url, a description, and an optional order. -/
structure PhotoIn where
  photo_url : Value
  description : Value
  order : Option Value

/-- The dict of a submitted photo: order present only when supplied
(a supplied null order is the some vNull case). -/
def photoInDict (p : PhotoIn) : AList :=
  [("photo_url", p.photo_url), ("description", p.description)]
    ++ (match p.order with | some v => [("order", v)] | none => [])

/-- One step of the photo loop on a photo whose order key carries a
non-null value: the row stores that value under orden. -/
theorem add_photo_step_some (db : DB) (u d v : Value) (oid : Value) (j : Nat)
    (hv : v ≠ Value.vNull) :
    (add_observation_photo db
        (defaultOrden (setKey (photoInDict ⟨u, d, some v⟩) "observacion_id" oid) j)).2
      = ⟨db.observaciones,
         db.observacion_fotos ++
           [[("descripcion", d), ("observacion_id", oid), ("orden", v),
             ("url_foto", u), ("id", Value.vNum (db.nextId : Rat))]],
         db.nextId + 1⟩ := by
  have hord : defaultOrden (setKey (photoInDict ⟨u, d, some v⟩) "observacion_id" oid) j
      = setKey (delKey (setKey (photoInDict ⟨u, d, some v⟩) "observacion_id" oid)
          "order") "orden" v := by
    unfold defaultOrden
    rw [show lookupA (setKey (photoInDict ⟨u, d, some v⟩) "observacion_id" oid) "order"
        = some v from rfl]
    simp [isNoneV_eq_false hv]
  rw [hord]
  rfl

/-- Unfolding one iteration of the photo loop: the parent identifier is
attached, orden is the caller-supplied order value when one was given
(null included) and the 1-based position otherwise, and the produced
row is appended to the photo table. -/
theorem addPhotosLoop_cons (oid : Value) (db : DB) (u d : Value)
    (ord : Option Value) (rest : List Value) (j : Nat) :
    ∃ row,
      (addPhotosLoop oid db (Value.vDict (photoInDict ⟨u, d, ord⟩) :: rest) j).2
        = (addPhotosLoop oid
            ⟨db.observaciones, db.observacion_fotos ++ [row], db.nextId + 1⟩
            rest (j + 1)).2 ∧
      lookupA row "observacion_id" = some oid ∧
      lookupA row "orden" = some (match ord with
        | some v => v
        | none => Value.vNum ((j + 1 : Nat) : Rat)) := by
  rcases ord with _ | v
  · exact ⟨[("descripcion", d), ("observacion_id", oid),
            ("orden", Value.vNum ((j + 1 : Nat) : Rat)),
            ("url_foto", u), ("id", Value.vNum (db.nextId : Rat))],
           rfl, rfl, rfl⟩
  · by_cases hv : v = Value.vNull
    · subst hv
      exact ⟨[("descripcion", d), ("observacion_id", oid), ("orden", Value.vNull),
              ("url_foto", u), ("id", Value.vNum (db.nextId : Rat))],
             rfl, rfl, rfl⟩
    · refine ⟨[("descripcion", d), ("observacion_id", oid), ("orden", v),
               ("url_foto", u), ("id", Value.vNum (db.nextId : Rat))],
              ?_, rfl, rfl⟩
      show (addPhotosLoop oid
          (add_observation_photo db
            (defaultOrden (setKey (photoInDict ⟨u, d, some v⟩) "observacion_id" oid) j)).2
          rest (j + 1)).2 = _
      rw [add_photo_step_some db u d v oid j hv]

/-- The photo loop appends exactly one row per submitted photo, each
carrying the parent identifier and the defaulted order. -/
theorem addPhotosLoop_spec (oid : Value) :
    ∀ (photos : List PhotoIn) (db : DB) (j : Nat),
      ∃ added : List AList,
        (addPhotosLoop oid db
            (photos.map (fun p => Value.vDict (photoInDict p))) j).2.observacion_fotos
          = db.observacion_fotos ++ added ∧
        added.length = photos.length ∧
        ∀ (i : Nat) (p : PhotoIn), photos[i]? = some p →
          ∃ row, added[i]? = some row ∧
            lookupA row "observacion_id" = some oid ∧
            lookupA row "orden" = some (match p.order with
              | some v => v
              | none => Value.vNum ((j + i + 1 : Nat) : Rat)) := by
  intro photos
  induction photos with
  | nil =>
    intro db j
    exact ⟨[], by simp [addPhotosLoop], rfl, fun i p hp => by simp at hp⟩
  | cons p rest ih =>
    intro db j
    obtain ⟨u, d, ord⟩ := p
    obtain ⟨row0, hstep, hrow_oid, hrow_orden⟩ :=
      addPhotosLoop_cons oid db u d ord
        (rest.map (fun p => Value.vDict (photoInDict p))) j
    obtain ⟨added, hadded, hlen, hrows⟩ :=
      ih ⟨db.observaciones, db.observacion_fotos ++ [row0], db.nextId + 1⟩ (j + 1)
    refine ⟨row0 :: added, ?_, by simp only [List.length_cons, hlen], ?_⟩
    · rw [List.map_cons, hstep, hadded]
      simp
    · intro i q hq
      cases i with
      | zero =>
        simp only [List.getElem?_cons_zero] at hq
        cases hq
        exact ⟨row0, by simp, hrow_oid, by simpa using hrow_orden⟩
      | succ i2 =>
        simp only [List.getElem?_cons_succ] at hq
        obtain ⟨row, hrow, h1, h2⟩ := hrows i2 q hq
        refine ⟨row, by simpa using hrow, h1, ?_⟩
        rw [show j + (i2 + 1) + 1 = j + 1 + i2 + 1 from by omega]
        exact h2

/-- The state produced by create_observation: the observation row is
inserted first (receiving the generated identifier), then the photo loop
runs against the incremented id sequence. -/
theorem create_observation_snd (db : DB) (data : AList) (ps : List Value)
    (hp : lookupA data "photos" = some (Value.vList ps)) :
    (create_observation db data).2
      = (addPhotosLoop (Value.vNum (db.nextId : Rat))
          ⟨db.observaciones ++
             [setKey (convert_to_db_format (delKey data "photos")) "id"
               (Value.vNum (db.nextId : Rat))],
           db.observacion_fotos, db.nextId + 1⟩
          ps 0).2 := by
  unfold create_observation dbInsert
  rw [hp]
  dsimp only
  rw [lookupA_setKey_self]
  rfl

/-- C8: for every create call and every photo at 1-based position i of
the submitted list, the created photo row carries the parent
observation identifier, and its orden is the caller-supplied order
value when one was supplied (a supplied null included) and i when the
order was omitted. -/
theorem C8_photo_rows (db : DB) (data : AList) (photos : List PhotoIn)
    (hp : lookupA data "photos"
      = some (Value.vList (photos.map (fun p => Value.vDict (photoInDict p))))) :
    (create_observation db data).2.observacion_fotos.length
        = db.observacion_fotos.length + photos.length ∧
    ∀ (i : Nat) (p : PhotoIn), photos[i]? = some p →
      ∃ row,
        (create_observation db data).2.observacion_fotos[db.observacion_fotos.length + i]?
          = some row ∧
        lookupA row "observacion_id" = some (Value.vNum (db.nextId : Rat)) ∧
        lookupA row "orden" = some (match p.order with
          | some v => v
          | none => Value.vNum ((i + 1 : Nat) : Rat)) := by
  rw [create_observation_snd db data _ hp]
  obtain ⟨added, hadded, hlen, hrows⟩ :=
    addPhotosLoop_spec (Value.vNum (db.nextId : Rat)) photos
      ⟨db.observaciones ++
         [setKey (convert_to_db_format (delKey data "photos")) "id"
           (Value.vNum (db.nextId : Rat))],
       db.observacion_fotos, db.nextId + 1⟩ 0
  rw [hadded]
  dsimp only
  refine ⟨by simp [hlen], ?_⟩
  intro i p hip
  obtain ⟨row, hrow, h1, h2⟩ := hrows i p hip
  refine ⟨row, ?_, h1, by simpa using h2⟩
  rw [List.getElem?_append_right (by omega)]
  simpa using hrow

/-- C8 witness: a concrete create call with three photos, one with an
explicit order, one with a null order, one with the order omitted. -/
theorem C8_photo_rows_witness :
    ((create_observation ⟨[], [], 0⟩
        [("user_id", Value.vStr "u"),
         ("photos", Value.vList
           [Value.vDict (photoInDict ⟨Value.vStr "a", Value.vNull, some (Value.vNum 9)⟩),
            Value.vDict (photoInDict ⟨Value.vStr "b", Value.vNull, some Value.vNull⟩),
            Value.vDict (photoInDict ⟨Value.vStr "c", Value.vNull, none⟩)])]).2.observacion_fotos.length
      = 0 + 3) ∧
    ∃ row,
      (create_observation ⟨[], [], 0⟩
        [("user_id", Value.vStr "u"),
         ("photos", Value.vList
           [Value.vDict (photoInDict ⟨Value.vStr "a", Value.vNull, some (Value.vNum 9)⟩),
            Value.vDict (photoInDict ⟨Value.vStr "b", Value.vNull, some Value.vNull⟩),
            Value.vDict (photoInDict ⟨Value.vStr "c", Value.vNull, none⟩)])]).2.observacion_fotos[0 + 2]?
        = some row ∧
      lookupA row "observacion_id" = some (Value.vNum ((0 : Nat) : Rat)) ∧
      lookupA row "orden" = some (Value.vNum ((2 + 1 : Nat) : Rat)) := by
  have h := C8_photo_rows ⟨[], [], 0⟩
    [("user_id", Value.vStr "u"),
     ("photos", Value.vList
       [Value.vDict (photoInDict ⟨Value.vStr "a", Value.vNull, some (Value.vNum 9)⟩),
        Value.vDict (photoInDict ⟨Value.vStr "b", Value.vNull, some Value.vNull⟩),
        Value.vDict (photoInDict ⟨Value.vStr "c", Value.vNull, none⟩)])]
    [⟨Value.vStr "a", Value.vNull, some (Value.vNum 9)⟩,
     ⟨Value.vStr "b", Value.vNull, some Value.vNull⟩,
     ⟨Value.vStr "c", Value.vNull, none⟩] rfl
  exact ⟨h.1, h.2 2 ⟨Value.vStr "c", Value.vNull, none⟩ rfl⟩

theorem lookupA_not_mem {β : Type} (d : List (String × β)) (k : String)
    (h : k ∉ d.map Prod.fst) : lookupA d k = none := by
  induction d with
  | nil => rfl
  | cons p rest ih =>
    obtain ⟨k1, v1⟩ := p
    simp only [List.map_cons, List.mem_cons, not_or] at h
    simp only [lookupA, if_neg h.1]
    exact ih h.2

theorem mem_keys_setKey {β : Type} (d : List (String × β)) (k k2 : String) (v : β)
    (h : k2 ∈ (setKey d k v).map Prod.fst) : k2 ∈ d.map Prod.fst ∨ k2 = k := by
  induction d with
  | nil => simpa [setKey] using h
  | cons p rest ih =>
    obtain ⟨k1, v1⟩ := p
    by_cases hk : k1 = k
    · subst hk
      have hset : setKey ((k1, v1) :: rest) k1 v = (k1, v) :: rest := by
        simp [setKey]
      rw [hset] at h
      simp only [List.map_cons, List.mem_cons] at h ⊢
      tauto
    · simp only [setKey, if_neg hk, List.map_cons, List.mem_cons] at h ⊢
      rcases h with h | h
      · exact Or.inl (Or.inl h)
      · rcases ih h with h2 | h2
        · exact Or.inl (Or.inr h2)
        · exact Or.inr h2

theorem nodupKeys_setKey {β : Type} (d : List (String × β)) (k : String) (v : β)
    (h : (d.map Prod.fst).Nodup) : ((setKey d k v).map Prod.fst).Nodup := by
  induction d with
  | nil => simp [setKey]
  | cons p rest ih =>
    obtain ⟨k1, v1⟩ := p
    simp only [List.map_cons, List.nodup_cons] at h
    by_cases hk : k1 = k
    · subst hk
      have hset : setKey ((k1, v1) :: rest) k1 v = (k1, v) :: rest := by
        simp [setKey]
      rw [hset]
      simp only [List.map_cons, List.nodup_cons]
      exact h
    · simp only [setKey, if_neg hk, List.map_cons, List.nodup_cons]
      refine ⟨fun hmem => ?_, ih h.2⟩
      rcases mem_keys_setKey rest k k1 v hmem with h2 | h2
      · exact h.1 h2
      · exact hk h2

theorem nodupKeys_renamePass (table : String → Option (Option String)) :
    ∀ (data : AList) (acc : AList), (acc.map Prod.fst).Nodup →
      ((data.foldl (fun acc kv =>
        match table kv.1 with
        | some (some n) => setKey acc n kv.2
        | some none => acc
        | none => setKey acc kv.1 kv.2) acc).map Prod.fst).Nodup := by
  intro data
  induction data with
  | nil => intro acc hacc; exact hacc
  | cons kv rest ih =>
    intro acc hacc
    simp only [List.foldl_cons]
    apply ih
    rcases table kv.1 with _ | mn
    · exact nodupKeys_setKey _ _ _ hacc
    · rcases mn with _ | n
      · exact hacc
      · exact nodupKeys_setKey _ _ _ hacc

theorem nodupKeys_convert_to_db (data : AList) :
    ((convert_to_db_format data).map Prod.fst).Nodup := by
  have hbase := nodupKeys_renamePass toDbName data [] (by simp)
  unfold convert_to_db_format
  rcases lookupA data "latitude" with _ | lv <;>
    rcases lookupA data "longitude" with _ | gv <;>
    try exact hbase
  dsimp only
  rcases pyFloat lv with _ | la <;> rcases pyFloat gv with _ | lo <;>
    first
      | exact hbase
      | exact nodupKeys_setKey _ _ _ hbase

theorem lookupA_applyUpd_none (r u : AList) (k : String)
    (h : lookupA u k = none) : lookupA (applyUpd r u) k = lookupA r k := by
  induction u generalizing r with
  | nil => rfl
  | cons kv u ih =>
    obtain ⟨k1, v1⟩ := kv
    simp only [lookupA] at h
    by_cases hk : k = k1
    · rw [if_pos hk] at h; cases h
    · rw [if_neg hk] at h
      show lookupA (applyUpd (setKey r k1 v1) u) k = lookupA r k
      rw [ih _ h, lookupA_setKey_other _ _ _ _ hk]

theorem lookupA_applyUpd_some (r u : AList) (k : String) (v : Value)
    (hnodup : (u.map Prod.fst).Nodup) (h : lookupA u k = some v) :
    lookupA (applyUpd r u) k = some v := by
  induction u generalizing r with
  | nil => cases h
  | cons kv u ih =>
    obtain ⟨k1, v1⟩ := kv
    simp only [List.map_cons, List.nodup_cons] at hnodup
    simp only [lookupA] at h
    by_cases hk : k = k1
    · rw [if_pos hk] at h
      subst hk
      have hu : lookupA u k = none := lookupA_not_mem u k hnodup.1
      show lookupA (applyUpd (setKey r k v1) u) k = some v
      rw [lookupA_applyUpd_none _ _ _ hu, lookupA_setKey_self]
      exact h
    · rw [if_neg hk] at h
      show lookupA (applyUpd (setKey r k1 v1) u) k = some v
      exact ih (setKey r k1 v1) hnodup.2 h

theorem update_observation_snd (db : DB) (oid : Value) (data : AList) :
    (update_observation db oid data).2
      = ⟨db.observaciones.map (fun r =>
            if idMatches r "id" oid then
              applyUpd r (convert_to_db_format (serialize_uuid_and_date data))
            else r),
         db.observacion_fotos, db.nextId⟩ := by
  unfold update_observation
  dsimp only
  rcases hm : db.observaciones.filter (fun r => idMatches r "id" oid) with _ | ⟨a, l⟩ <;>
    rfl

/-- C9: update writes exactly the storage translations of the fields
present in the request: non-matching rows are untouched, a matching row
keeps the prior value of every column the translated request does not
contain and receives the request value for every column it does, and the
request containing only description translates to a write of descripcion
alone. -/
theorem C9_update_only_given_fields (db : DB) (oid : Value) (data : AList) :
    (update_observation db oid data).2.observacion_fotos = db.observacion_fotos ∧
    (update_observation db oid data).2.nextId = db.nextId ∧
    (update_observation db oid data).2.observaciones.length
        = db.observaciones.length ∧
    (∀ (i : Nat) (r : AList), db.observaciones[i]? = some r →
      (idMatches r "id" oid = false →
        (update_observation db oid data).2.observaciones[i]? = some r) ∧
      (idMatches r "id" oid = true →
        (update_observation db oid data).2.observaciones[i]?
            = some (applyUpd r (convert_to_db_format (serialize_uuid_and_date data))) ∧
        (∀ k, lookupA (convert_to_db_format (serialize_uuid_and_date data)) k = none →
          lookupA (applyUpd r (convert_to_db_format (serialize_uuid_and_date data))) k
            = lookupA r k) ∧
        (∀ k v, lookupA (convert_to_db_format (serialize_uuid_and_date data)) k = some v →
          lookupA (applyUpd r (convert_to_db_format (serialize_uuid_and_date data))) k
            = some v))) ∧
    (∀ x : String,
      convert_to_db_format (serialize_uuid_and_date [("description", Value.vStr x)])
        = [("descripcion", Value.vStr x)]) := by
  rw [update_observation_snd]
  refine ⟨rfl, rfl, by simp, ?_, fun x => rfl⟩
  intro i r hr
  constructor
  · intro hm
    simp only [List.getElem?_map, hr, Option.map_some', hm]
    rfl
  · intro hm
    refine ⟨?_, ?_, ?_⟩
    · simp only [List.getElem?_map, hr, Option.map_some', hm]
      rfl
    · intro k hk
      exact lookupA_applyUpd_none _ _ _ hk
    · intro k v hkv
      exact lookupA_applyUpd_some _ _ _ _ (nodupKeys_convert_to_db _) hkv

/-- C9 witness: updating only the description of a concrete stored row
changes descripcion and leaves user_id untouched. -/
theorem C9_update_only_given_fields_witness :
    (update_observation
        ⟨[[("id", Value.vStr "a"), ("descripcion", Value.vStr "old"),
           ("user_id", Value.vStr "u")]], [], 5⟩
        (Value.vStr "a") [("description", Value.vStr "x")]).2.observaciones[0]?
      = some (applyUpd
          [("id", Value.vStr "a"), ("descripcion", Value.vStr "old"),
           ("user_id", Value.vStr "u")]
          (convert_to_db_format
            (serialize_uuid_and_date [("description", Value.vStr "x")]))) ∧
    lookupA (applyUpd
        [("id", Value.vStr "a"), ("descripcion", Value.vStr "old"),
         ("user_id", Value.vStr "u")]
        (convert_to_db_format
          (serialize_uuid_and_date [("description", Value.vStr "x")]))) "user_id"
      = lookupA [("id", Value.vStr "a"), ("descripcion", Value.vStr "old"),
          ("user_id", Value.vStr "u")] "user_id" := by
  have h := C9_update_only_given_fields
    ⟨[[("id", Value.vStr "a"), ("descripcion", Value.vStr "old"),
       ("user_id", Value.vStr "u")]], [], 5⟩
    (Value.vStr "a") [("description", Value.vStr "x")]
  have h2 := (h.2.2.2.1 0
    [("id", Value.vStr "a"), ("descripcion", Value.vStr "old"),
     ("user_id", Value.vStr "u")] rfl).2 rfl
  exact ⟨h2.1, h2.2.1 "user_id" rfl⟩

/-- C1 witness: the round trip evaluated at a concrete observation
record with coordinates 12.5 and -1.5. -/
theorem C1_roundtrip_mapping_witness :
    lookupA (convert_from_db_format (convert_to_db_format (extToAList
      ⟨Value.vStr "i", Value.vStr "u", Value.vNum 3, Value.vStr "sn", Value.vStr "cn",
       Value.vStr "d", mkRat 25 2, mkRat (-3) 2, Value.vNum 1, Value.vNum 2,
       Value.vNum 3, Value.vNum 4, Value.vNull, Value.vNull, Value.vList []⟩)))
      "latitude" = some (Value.vNum (mkRat 25 2)) :=
  (C1_roundtrip_mapping
    ⟨Value.vStr "i", Value.vStr "u", Value.vNum 3, Value.vStr "sn", Value.vStr "cn",
     Value.vStr "d", mkRat 25 2, mkRat (-3) 2, Value.vNum 1, Value.vNum 2,
     Value.vNum 3, Value.vNum 4, Value.vNull, Value.vNull, Value.vList []⟩
    (by decide) (by decide)).1

end InsectApi
